import Mathlib

/-!
Verification of the openclaw session and directive resolution engine.

The definitions below are a shallow embedding of the TypeScript sources:
the inline directive parsers and the conversation-turn orchestrator of
src/unnamed/part_000, the model-selection helpers of
src/src/agents/model-selection.ts, and the cron session path of
src/src/cron/isolated-agent.ts.  Strings are lists of characters;
JavaScript regular expressions are translated operationally (leftmost
match, alternatives in source order, greedy quantifiers with
backtracking).  Helpers that live in repository modules not present in
the source tree (thinking.js, sessions.js, model.js, group-activation.js,
utils.js, tokens.js) are modelled from the specification and are marked
as such in their doc comments.
-/

namespace OpenClaw

/-- JavaScript whitespace class: the characters matched by the regex
class backslash-s (also the set removed by String.prototype.trim). -/
def wsChar (c : Char) : Bool :=
  c = ' ' || c = '\t' || c = '\n' || c = '\r' ||
  c.toNat = 11 || c.toNat = 12 ||
  c.toNat = 0xa0 || c.toNat = 0x1680 ||
  (0x2000 ≤ c.toNat && c.toNat ≤ 0x200a) ||
  c.toNat = 0x2028 || c.toNat = 0x2029 ||
  c.toNat = 0x202f || c.toNat = 0x205f ||
  c.toNat = 0x3000 || c.toNat = 0xfeff

/-- JavaScript word character (regex class backslash-w): ASCII letters,
digits and underscore; used by the word-boundary assertion. -/
def wordChar (c : Char) : Bool :=
  (97 ≤ c.toNat && c.toNat ≤ 122) || (65 ≤ c.toNat && c.toNat ≤ 90) ||
  (48 ≤ c.toNat && c.toNat ≤ 57) || c = '_'

/-- Character class of a directive level token: ASCII letters or hyphen
(the regex class [a-zA-Z-]). -/
def levelChar (c : Char) : Bool :=
  (97 ≤ c.toNat && c.toNat ≤ 122) || (65 ≤ c.toNat && c.toNat ≤ 90) || c = '-'

/-- ASCII lower-casing of one character (the inputs handled by the
engine are ASCII; JavaScript toLowerCase agrees with this on ASCII). -/
def lowerChar (c : Char) : Char :=
  if 65 ≤ c.toNat && c.toNat ≤ 90 then Char.ofNat (c.toNat + 32) else c

/-- Lower-case a character list. -/
def toLowerStr (l : List Char) : List Char := l.map lowerChar

/-- Case-insensitive prefix test, used for the i-flag of the directive
regexes. -/
def isPrefixCI : List Char → List Char → Bool
  | [], _ => true
  | _ :: _, [] => false
  | p :: ps, c :: cs => (lowerChar p = lowerChar c) && isPrefixCI ps cs

/-- JavaScript String.prototype.trim on a character list. -/
def trimChars (l : List Char) : List Char :=
  ((l.dropWhile wsChar).reverse.dropWhile wsChar).reverse

/-- Worker of the whitespace collapse, with a step bound (every step
consumes at least one character, so a bound above the length is never
reached). -/
def collapseWsGo : Nat → List Char → List Char
  | 0, l => l
  | _, [] => []
  | f + 1, c :: rest =>
    if wsChar c then ' ' :: collapseWsGo f (rest.dropWhile wsChar)
    else c :: collapseWsGo f rest

/-- The global replacement of every whitespace run by a single space:
the .replace with pattern backslash-s-plus and replacement one space. -/
def collapseWs (l : List Char) : List Char := collapseWsGo (l.length + 1) l

/-- Index of the first occurrence of pat as a contiguous sublist, the
search used by String.prototype.replace with a string pattern. -/
def listIndexOf (pat : List Char) : List Char → Option Nat
  | [] => if pat.isEmpty then some 0 else none
  | c :: rest =>
    if pat.isPrefixOf (c :: rest) then some 0
    else (listIndexOf pat rest).map (· + 1)

/-- String.prototype.replace with a string pattern and empty
replacement: deletes the first occurrence of pat, if any. -/
def replaceFirstStr (s pat : List Char) : List Char :=
  match listIndexOf pat s with
  | none => s
  | some i => s.take i ++ s.drop (i + pat.length)

/-- Word-boundary assertion of the directive regexes, evaluated after
the captured level token: lastc is the character before the position,
next the character after (none at end of input). -/
def boundaryOk (lastc : Char) (next : Option Char) : Bool :=
  match next with
  | none => wordChar lastc
  | some n => wordChar lastc != wordChar n

/-- Backtracking over the greedy [a-zA-Z-]+ capture: try the capture
lengths k, k-1, ..., 1 until the trailing word boundary holds.  run is
the maximal levelChar run, rest the input after it. -/
def tryBoundaryDown (run rest : List Char) : Nat → Option Nat
  | 0 => none
  | k0 + 1 =>
    match run[k0]? with
    | none => tryBoundaryDown run rest k0
    | some lc =>
      let next := if k0 + 1 < run.length then run[k0 + 1]? else rest.head?
      if boundaryOk lc next then some (k0 + 1) else tryBoundaryDown run rest k0

/-- The common argument tail of the directive regexes, the fragment
backslash-s-star colon-opt backslash-s-star capture([a-zA-Z-]+)
word-boundary.  Returns the number of consumed characters and the
captured token.  The greedy whitespace runs and the optional colon are
deterministic here because reducing them can never let the character
class match (see the classes: they are pairwise disjoint). -/
def matchTail (s : List Char) : Option (Nat × List Char) :=
  let w1 := (s.takeWhile wsChar).length
  let s1 := s.drop w1
  let cLen := match s1 with
    | ':' :: _ => 1
    | _ => 0
  let s2 := s1.drop cLen
  let w2 := (s2.takeWhile wsChar).length
  let r2 := s2.drop w2
  let run := r2.takeWhile levelChar
  match tryBoundaryDown run (r2.drop run.length) run.length with
  | some k => some (w1 + cLen + w2 + k, run.take k)
  | none => none

/-- Keyword alternation with backtracking: alternatives are tried in
source order; when a keyword prefix (case-insensitive) and its
lookahead hold but the tail fails, the next alternative is tried, as a
JavaScript regex engine does. -/
def tryAlts (look : List Char → Bool) : List (List Char) → List Char → Option (Nat × List Char)
  | [], _ => none
  | kw :: alts, s =>
    if isPrefixCI kw s && look (s.drop kw.length) then
      match matchTail (s.drop kw.length) with
      | some (n, cap) => some (kw.length + n, cap)
      | none => tryAlts look alts s
    else tryAlts look alts s

/-- Core of a directive regex at a fixed position: the literal slash,
then the keyword alternation with its lookahead and argument tail. -/
def matchCore (alts : List (List Char)) (look : List Char → Bool) (s : List Char) :
    Option (Nat × List Char) :=
  match s with
  | '/' :: rest =>
    match tryAlts look alts rest with
    | some (n, cap) => some (n + 1, cap)
    | none => none
  | _ => none

/-- Leftmost-match scanner for a pattern of the form
(start-or-whitespace) core: positions are tried left to right; at
position zero the zero-width start anchor is tried before the
whitespace alternative, matching the alternation order of the source
regexes.  Returns (start index, match length, capture). -/
def scanFrom {α : Type} (core : List Char → Option (Nat × α)) :
    List Char → Bool → Option (Nat × Nat × α)
  | [], atStart =>
    if atStart then (core []).map (fun p => (0, p.1, p.2)) else none
  | c :: rest, atStart =>
    let anchored := if atStart then (core (c :: rest)).map (fun p => (0, p.1, p.2)) else none
    match anchored with
    | some r => some r
    | none =>
      let viaWs := if wsChar c then (core rest).map (fun p => (0, p.1 + 1, p.2)) else none
      match viaWs with
      | some r => some r
      | none => (scanFrom core rest false).map (fun r => (r.1 + 1, r.2.1, r.2.2))

/-- Keyword alternatives of the think directive, longest first as in
the source regex: thinking, think, t. -/
def thinkAlts : List (List Char) := ["thinking".data, "think".data, "t".data]

/-- Keyword alternatives of the verbose directive: verbose, v. -/
def verboseAlts : List (List Char) := ["verbose".data, "v".data]

/-- Lookahead of the verbose and model directives: after the keyword
the input must end or continue with whitespace or a colon. -/
def kwLookahead (r : List Char) : Bool :=
  match r.head? with
  | none => true
  | some c => wsChar c || c = ':'

/-- The think-directive regex (case-insensitive):
(start-or-ws) slash (thinking or think or t) ws-star colon-opt ws-star
capture([a-zA-Z-]+) word-boundary. -/
def findThinkMatch (s : List Char) : Option (Nat × Nat × List Char) :=
  scanFrom (matchCore thinkAlts (fun _ => true)) s true

/-- The verbose-directive regex (case-insensitive):
(start-or-ws) slash (verbose or v) lookahead(end, ws or colon) ws-star
colon-opt ws-star capture([a-zA-Z-]+) word-boundary. -/
def findVerboseMatch (s : List Char) : Option (Nat × Nat × List Char) :=
  scanFrom (matchCore verboseAlts kwLookahead) s true

/-- Modelled from the spec: normalizeThinkLevel lives in thinking.js,
which is not among the provided sources.  Per the user-facing
correction message in the orchestrator, the valid thinking levels are
off, minimal, low, medium and high; matching is case-insensitive. -/
def normalizeThinkLevel (raw : Option String) : Option String :=
  match raw with
  | none => none
  | some r =>
    let t := String.mk (toLowerStr (trimChars r.data))
    if t = "off" || t = "minimal" || t = "low" || t = "medium" || t = "high" then some t
    else none

/-- Modelled from the spec: normalizeVerboseLevel lives in thinking.js,
which is not among the provided sources.  Per the user-facing
correction message, the valid verbose levels are off and on; matching
is case-insensitive. -/
def normalizeVerboseLevel (raw : Option String) : Option String :=
  match raw with
  | none => none
  | some r =>
    let t := String.mk (toLowerStr (trimChars r.data))
    if t = "off" || t = "on" then some t else none

/-- Result record of extractThinkDirective. -/
structure ThinkDirectiveResult where
  cleaned : String
  thinkLevel : Option String
  rawLevel : Option String
  hasDirective : Bool
deriving DecidableEq, Repr

/-- Result record of extractVerboseDirective. -/
structure VerboseDirectiveResult where
  cleaned : String
  verboseLevel : Option String
  rawLevel : Option String
  hasDirective : Bool
deriving DecidableEq, Repr

/-- extractThinkDirective of part_000: match the think regex; on a
match, delete the first occurrence of the matched text, collapse
whitespace runs and trim; otherwise only trim. -/
def extractThinkDirective (body : String) : ThinkDirectiveResult :=
  if body = "" then ⟨"", none, none, false⟩
  else
    let s := body.data
    match findThinkMatch s with
    | none => ⟨String.mk (trimChars s), none, none, false⟩
    | some (idx, len, cap) =>
      let m0 := (s.drop idx).take len
      let cleaned := trimChars (collapseWs (replaceFirstStr s m0))
      let raw := String.mk cap
      ⟨String.mk cleaned, normalizeThinkLevel (some raw), some raw, true⟩

/-- extractVerboseDirective of part_000, analogous to the think
extractor with the verbose keywords and their lookahead. -/
def extractVerboseDirective (body : String) : VerboseDirectiveResult :=
  if body = "" then ⟨"", none, none, false⟩
  else
    let s := body.data
    match findVerboseMatch s with
    | none => ⟨String.mk (trimChars s), none, none, false⟩
    | some (idx, len, cap) =>
      let m0 := (s.drop idx).take len
      let cleaned := trimChars (collapseWs (replaceFirstStr s m0))
      let raw := String.mk cap
      ⟨String.mk cleaned, normalizeVerboseLevel (some raw), some raw, true⟩

/-! ### Data model: session records, store, configuration -/

/-- SessionEntry of config/sessions.js as used by the engine: the
persisted record of one session key.  Optional TypeScript fields are
Options.  updatedAt is the millisecond timestamp used by the freshness
check. -/
structure SessionEntry where
  sessionId : String
  updatedAt : Int
  systemSent : Option Bool := none
  abortedLastRun : Option Bool := none
  thinkingLevel : Option String := none
  verboseLevel : Option String := none
  modelOverride : Option String := none
  providerOverride : Option String := none
  groupActivation : Option String := none
  groupActivationNeedsSystemIntro : Option Bool := none
  inputTokens : Option Int := none
  outputTokens : Option Int := none
  totalTokens : Option Int := none
  contextTokens : Option Int := none
  model : Option String := none
  skillsSnapshot : Option String := none
  lastChannel : Option String := none
  lastTo : Option String := none
deriving DecidableEq, Repr

/-- The session store: a mapping from session key to record.  The
embedding threads the saved store as explicit state; every
saveSessionStore of the source corresponds to committing the updated
mapping. -/
def Store := String → Option SessionEntry

/-- Point update of the store (assignment to store[key] followed by a
save). -/
def Store.insert (s : Store) (k : String) (v : SessionEntry) : Store :=
  fun q => if q = k then some v else s q

/-- The empty store. -/
def emptyStore : Store := fun _ => none

/-- JavaScript truthiness of an optional string: undefined and the
empty string are falsy. -/
def optTruthy (o : Option String) : Bool :=
  match o with
  | none => false
  | some s => s ≠ ""

/-- Agent section of the configuration (the fields the engine reads). -/
structure AgentConfig where
  provider : Option String := none
  model : Option String := none
  allowedModels : List String := []
  thinkingDefault : Option String := none
  verboseDefault : Option String := none
  contextTokens : Option Int := none
  timeoutSeconds : Option Int := none
deriving DecidableEq, Repr

/-- Group-chat routing options. -/
structure GroupChatConfig where
  requireMention : Option Bool := none
  mentionPatterns : List String := []
deriving DecidableEq, Repr

/-- Routing section of the configuration. -/
structure RoutingConfig where
  allowFrom : Option (List String) := none
  groupChat : Option GroupChatConfig := none
deriving DecidableEq, Repr

/-- Session scoping policy: per-sender, per-group, or the single shared
main key. -/
inductive SessionScope where
  | perSender
  | perGroup
  | main
deriving DecidableEq, Repr

/-- Session section of the configuration.  resetTriggers models the
optional array; the empty list stands for an absent or empty
configuration entry (the source treats those alike via the length
check). -/
structure SessionConfig where
  mainKey : Option String := none
  resetTriggers : List String := []
  idleMinutes : Option Int := none
  scope : Option SessionScope := none
deriving DecidableEq, Repr

/-- The configuration record (the parts the session and directive
engine reads). -/
structure ClawdisConfig where
  agent : Option AgentConfig := none
  routing : Option RoutingConfig := none
  session : Option SessionConfig := none
deriving DecidableEq, Repr

/-- Modelled from the spec: DEFAULT_PROVIDER of agents/defaults.js,
which is not among the provided sources.  The concrete value is
irrelevant to every claim; the configuration examples use anthropic. -/
def DEFAULT_PROVIDER : String := "anthropic"

/-- Modelled from the spec: DEFAULT_MODEL of agents/defaults.js, which
is not among the provided sources. -/
def DEFAULT_MODEL : String := "claude-opus-4-5"

/-- Modelled from the spec: DEFAULT_CONTEXT_TOKENS of
agents/defaults.js; the configuration documentation uses 200000. -/
def DEFAULT_CONTEXT_TOKENS : Int := 200000

/-- Modelled from the spec: DEFAULT_IDLE_MINUTES of config/sessions.js
(not among the provided sources); the configuration documentation uses
an idle window of 60 minutes. -/
def DEFAULT_IDLE_MINUTES : Int := 60

/-- Modelled from the spec: DEFAULT_RESET_TRIGGERS of
config/sessions.js (not among the provided sources); the spec and the
bootstrap prompt name /new and /reset as the reset triggers. -/
def DEFAULT_RESET_TRIGGERS : List String := ["/new", "/reset"]

/-- Modelled from the spec: lookupContextTokens of agents/context.js is
a catalog-derived advisory lookup of a context-window size; the spec
provides no table, so the model knows none.  No claim depends on the
value. -/
def lookupContextTokens (_model : String) : Option Int := none

/-! ### Model selection (src/src/agents/model-selection.ts) -/

/-- A provider/model pair. -/
structure ModelRef where
  provider : String
  model : String
deriving DecidableEq, Repr

/-- modelKey of model-selection.ts. -/
def modelKey (provider model : String) : String := provider ++ "/" ++ model

/-- parseModelRef of model-selection.ts: trim; an empty string is
invalid; without a slash the default provider is assumed; otherwise
split at the first slash and trim both parts, either part empty being
invalid. -/
def parseModelRef (raw : String) (defaultProvider : String) : Option ModelRef :=
  let trimmed := String.mk (trimChars raw.data)
  if trimmed = "" then none
  else
    match listIndexOf ['/'] trimmed.data with
    | none => some ⟨defaultProvider, trimmed⟩
    | some slash =>
      let provider := String.mk (trimChars (trimmed.data.take slash))
      let model := String.mk (trimChars (trimmed.data.drop (slash + 1)))
      if provider = "" || model = "" then none else some ⟨provider, model⟩

/-- resolveConfiguredModelRef of model-selection.ts: the configured
default pair from agent.provider / agent.model (the model string may
be provider-prefixed), falling back to the passed defaults. -/
def resolveConfiguredModelRef (cfg : ClawdisConfig) (defaultProvider defaultModel : String) :
    ModelRef :=
  let rawProvider := String.mk (trimChars (((cfg.agent.bind (·.provider)).getD "").data))
  let rawModel := String.mk (trimChars (((cfg.agent.bind (·.model)).getD "").data))
  let providerFallback := if rawProvider = "" then defaultProvider else rawProvider
  if rawModel ≠ "" then
    match parseModelRef rawModel providerFallback with
    | some parsed => parsed
    | none => ⟨providerFallback, rawModel⟩
  else ⟨providerFallback, defaultModel⟩

/-- One entry of the model catalog. -/
structure ModelCatalogEntry where
  provider : String
  id : String
  name : Option String := none
deriving DecidableEq, Repr

/-- Insertion into the JavaScript-Set model (a duplicate-free list in
insertion order). -/
def insertKey (l : List String) (k : String) : List String :=
  if l.contains k then l else l ++ [k]

/-- Construction of a JavaScript Set from a list of keys. -/
def mkKeySet (ks : List String) : List String := ks.foldl insertKey []

/-- The key set of a whole catalog. -/
def catalogKeysOf (catalog : List ModelCatalogEntry) : List String :=
  mkKeySet (catalog.map fun e => modelKey e.provider e.id)

/-- The allow-list keys: each configured entry is parsed against the
default provider and kept only when present in the catalog. -/
def allowlistKeysOf (rawAllowlist : List String) (defaultProvider : String)
    (catalogKeys : List String) : List String :=
  rawAllowlist.foldl
    (fun acc raw =>
      match parseModelRef raw defaultProvider with
      | none => acc
      | some p =>
        let key := modelKey p.provider p.model
        if catalogKeys.contains key then insertKey acc key else acc)
    []

/-- Result of buildAllowedModelSet. -/
structure AllowedModelSet where
  allowAny : Bool
  allowedCatalog : List ModelCatalogEntry
  allowedKeys : List String
deriving DecidableEq, Repr

/-- buildAllowedModelSet of model-selection.ts: no configured
allow-list means allow-all; otherwise intersect the allow-list with
the catalog, and fall back to allow-all when the intersection is
empty. -/
def buildAllowedModelSet (cfg : ClawdisConfig) (catalog : List ModelCatalogEntry)
    (defaultProvider : String) : AllowedModelSet :=
  let rawAllowlist := (cfg.agent.map (·.allowedModels)).getD []
  let allowAny := rawAllowlist.length = 0
  let catalogKeys := catalogKeysOf catalog
  if allowAny then ⟨true, catalog, catalogKeys⟩
  else
    let allowedKeys := allowlistKeysOf rawAllowlist defaultProvider catalogKeys
    let allowedCatalog := catalog.filter fun e => allowedKeys.contains (modelKey e.provider e.id)
    if allowedCatalog.length = 0 then ⟨true, catalog, catalogKeys⟩
    else ⟨false, allowedCatalog, allowedKeys⟩

/-! ### The inline model selector (part_000, pure-command path) -/

/-- The inline model-selector handling of the pure-command path of
getReplyFromConfig (part_000: parse and validation, followed by the
clear-or-persist step): a parse failure or a key outside a non-empty
allowed set is rejected with the user-facing message; selecting the
default pair deletes both override fields; any other accepted pair is
stored as the override. -/
def applyModelSelection (rawModelDirective : String) (defaultProvider defaultModel : String)
    (allowedModelKeys : List String) (entry : SessionEntry) : Except String SessionEntry :=
  match parseModelRef rawModelDirective defaultProvider with
  | none =>
    .error ("Unrecognized model \"" ++ rawModelDirective ++
      "\". Use /model to list available models.")
  | some parsed =>
    let key := modelKey parsed.provider parsed.model
    if allowedModelKeys.length > 0 && !(allowedModelKeys.contains key) then
      .error ("Model \"" ++ parsed.provider ++ "/" ++ parsed.model ++
        "\" is not allowed. Use /model to list available models.")
    else
      let isDefault := parsed.provider = defaultProvider && parsed.model = defaultModel
      if isDefault then .ok { entry with providerOverride := none, modelOverride := none }
      else .ok { entry with
        providerOverride := some parsed.provider
        modelOverride := some parsed.model }

/-- Store-level effect of the model selector on the pure-command path:
a rejection returns before any save (the store is untouched); an
accepted selection writes the updated record with a fresh updatedAt
back under the session key. -/
def applyModelSelectionStore (raw dp dm : String) (allowedKeys : List String) (store : Store)
    (key : String) (entry : SessionEntry) (now : Int) : Store × Option String :=
  match applyModelSelection raw dp dm allowedKeys entry with
  | .error msg => (store, some msg)
  | .ok entry2 => (store.insert key { entry2 with updatedAt := now }, none)

/-! ### Inbound message context and structural normalization (part_000) -/

/-- The channel identity fields of an inbound message that the engine
reads (MsgContext).  Media and transcription fields are omitted: the
embedding covers text-only turns. -/
structure MsgContext where
  From : Option String := none
  To : Option String := none
  Body : Option String := none
  SenderE164 : Option String := none
  ChatType : Option String := none
  WasMentioned : Option Bool := none
  GroupSubject : Option String := none
  GroupMembers : Option String := none
deriving DecidableEq, Repr

/-- The group test of part_000: From contains the at-g-dot-us marker or
starts with the group: scheme. -/
def isGroupFrom (ctx : MsgContext) : Bool :=
  match ctx.From with
  | none => false
  | some f => (listIndexOf "@g.us".data f.data).isSome || "group:".data.isPrefixOf f.data

/-- The current-message marker recognized by stripStructuralPrefixes. -/
def structuralMarker : String := "[Current message - respond to this]"

/-- Removal of bracketed tokens with trailing whitespace, the global
replacement of the pattern bracket [^bracket]+ bracket ws-star by the
empty string: each opening bracket with at least one non-bracket
character before the next closing bracket is removed together with
that closing bracket and any following whitespace run. -/
def stripBracketTokens : Nat → List Char → List Char
  | 0, l => l
  | _, [] => []
  | f + 1, c :: rest =>
    if c = '[' then
      let run := rest.takeWhile (fun d => d ≠ ']')
      match rest.drop run.length with
      | ']' :: tail =>
        if run.isEmpty then c :: stripBracketTokens f rest
        else stripBracketTokens f (tail.dropWhile wsChar)
      | _ => c :: stripBracketTokens f rest
    else c :: stripBracketTokens f rest

/-- Character class of a line label: ASCII letters, digits, and the
characters plus, parentheses, hyphen, underscore, dot and space. -/
def labelChar (c : Char) : Bool :=
  (97 ≤ c.toNat && c.toNat ≤ 122) || (65 ≤ c.toNat && c.toNat ≤ 90) ||
  (48 ≤ c.toNat && c.toNat ≤ 57) ||
  c = '+' || c = '(' || c = ')' || c = '-' || c = '_' || c = '.' || c = ' '

/-- JavaScript line terminators (the positions after which a multiline
start anchor matches). -/
def lineTerm (c : Char) : Bool :=
  c = '\n' || c = '\r' || c.toNat = 0x2028 || c.toNat = 0x2029

/-- Removal of sender or label prefixes at line starts: the global
multiline replacement of the pattern start-anchor [ tab]* label-class+
colon ws-star by the empty string.  atStart tracks whether the current
position is the start of input or follows a line terminator; the
whitespace run after the colon may swallow line breaks, as the greedy
ws-star of the source pattern does. -/
def stripLineLabels : Nat → Bool → List Char → List Char
  | 0, _, l => l
  | _, _, [] => []
  | f + 1, atStart, c :: rest =>
    if atStart then
      let sp := (c :: rest).takeWhile (fun d => d = ' ' || d = '\t')
      let r1 := (c :: rest).drop sp.length
      let run := r1.takeWhile labelChar
      match run, r1.drop run.length with
      | _ :: _, ':' :: r3 =>
        let ws := r3.takeWhile wsChar
        let nextStart := match ws.getLast? with
          | some w => lineTerm w
          | none => false
        stripLineLabels f nextStart (r3.drop ws.length)
      | _, _ => c :: stripLineLabels f (lineTerm c) rest
    else c :: stripLineLabels f (lineTerm c) rest

/-- stripStructuralPrefixes of part_000: cut everything up to the
current-message marker when present, remove bracketed wrapper tokens,
remove line-leading sender or label prefixes, collapse whitespace and
trim. -/
def stripStructuralPrefixes (text : String) : String :=
  let s := text.data
  let marker := structuralMarker.data
  let afterMarker :=
    match listIndexOf marker s with
    | some i => s.drop (i + marker.length)
    | none => s
  let noBrackets := stripBracketTokens (afterMarker.length + 1) afterMarker
  let noLabels := stripLineLabels (noBrackets.length + 1) true noBrackets
  String.mk (trimChars (collapseWs noLabels))

/-- Removal of the anchored whatsapp: scheme (the replacement of the
start-anchored pattern whatsapp-colon by the empty string). -/
def stripWhatsappScheme (s : String) : String :=
  if "whatsapp:".data.isPrefixOf s.data then String.mk (s.data.drop 9) else s

/-- Global case-insensitive replacement of every occurrence of a
non-empty literal pattern by a single character. -/
def replaceAllCI : Nat → List Char → Char → List Char → List Char
  | 0, _, _, l => l
  | _, _, _, [] => []
  | f + 1, pat, repl, c :: rest =>
    if !pat.isEmpty && isPrefixCI pat (c :: rest) then
      repl :: replaceAllCI f pat repl ((c :: rest).drop pat.length)
    else c :: replaceAllCI f pat repl rest

/-- Digit or plus sign, the class of a generic numeric mention. -/
def digitPlus (c : Char) : Bool := (48 ≤ c.toNat && c.toNat ≤ 57) || c = '+'

/-- Global replacement of generic numeric mentions, the pattern
at-sign [0-9+]{5,}, by a single space. -/
def stripAtMentions : Nat → List Char → List Char
  | 0, l => l
  | _, [] => []
  | f + 1, c :: rest =>
    if c = '@' then
      let run := rest.takeWhile digitPlus
      if 5 ≤ run.length then ' ' :: stripAtMentions f (rest.drop run.length)
      else c :: stripAtMentions f rest
    else c :: stripAtMentions f rest

/-- stripMentions of part_000.  The leading loop applies the
user-configured mentionPatterns regular expressions; arbitrary
configured regexes are not statable in the embedding, so it covers
configurations whose pattern list is empty (the loop is then a no-op)
and the orchestrator theorems about group flows assume such a
configuration.  The remaining steps are faithful: the self number (To
without the whatsapp: scheme) and its at-sign-prefixed form are
blanked case-insensitively, generic at-sign numeric mentions are
blanked, and whitespace is collapsed and trimmed. -/
def stripMentions (text : String) (ctx : MsgContext) (_cfg : ClawdisConfig) : String :=
  let r0 := text.data
  let selfE164 := stripWhatsappScheme (ctx.To.getD "")
  let r1 :=
    if selfE164 ≠ "" then
      let a := replaceAllCI (r0.length + 1) selfE164.data ' ' r0
      replaceAllCI (a.length + 1) ('@' :: selfE164.data) ' ' a
    else r0
  let r2 := stripAtMentions (r1.length + 1) r1
  String.mk (trimChars (collapseWs r2))

/-- Modelled from the spec: normalizeE164 of utils.js is not among the
provided sources.  It canonicalizes a phone number: surrounding
whitespace and the whatsapp: scheme are dropped, the digits are kept
and a single leading plus sign is restored; a string without digits
normalizes to the empty string (a falsy value, filtered out by the
owner-list construction). -/
def normalizeE164 (s : String) : String :=
  let t := stripWhatsappScheme (String.mk (trimChars s.data))
  let digits := t.data.filter fun c => 48 ≤ c.toNat && c.toNat ≤ 57
  if digits.isEmpty then "" else String.mk ('+' :: digits)

/-- Result of parseActivationCommand. -/
structure ActivationCommand where
  hasCommand : Bool
  mode : Option String
deriving DecidableEq, Repr

/-- Modelled from the spec: parseActivationCommand of
group-activation.js is not among the provided sources.  It recognizes
the /activation command on the normalized body, either bare or with an
argument; the recognized modes are mention and always, and a
recognized command with any other argument reports no mode (the caller
then answers with a usage line). -/
def parseActivationCommand (body : String) : ActivationCommand :=
  let s := String.mk (trimChars body.data)
  if s = "/activation" then ⟨true, none⟩
  else if "/activation ".data.isPrefixOf s.data then
    let rest := String.mk (trimChars (s.data.drop 12))
    if rest = "mention" || rest = "always" then ⟨true, some rest⟩ else ⟨true, none⟩
  else ⟨false, none⟩

/-- Modelled from the spec: normalizeGroupActivation of
group-activation.js is not among the provided sources.  It maps a
stored activation value case-insensitively onto the enum mention or
always and rejects anything else. -/
def normalizeGroupActivation (raw : Option String) : Option String :=
  match raw with
  | none => none
  | some r =>
    let t := String.mk (toLowerStr (trimChars r.data))
    if t = "mention" || t = "always" then some t else none

/-- Result record of extractModelDirective. -/
structure ModelDirectiveResult where
  cleaned : String
  rawModel : Option String
  hasDirective : Bool
deriving DecidableEq, Repr

/-- The argument tail of the model directive: optional whitespace,
optional colon, optional whitespace, then an optional
whitespace-delimited token.  Returns consumed length and the token. -/
def matchTailOpt (s : List Char) : Nat × Option (List Char) :=
  let w1 := (s.takeWhile wsChar).length
  let s1 := s.drop w1
  let cLen := match s1 with
    | ':' :: _ => 1
    | _ => 0
  let s2 := s1.drop cLen
  let w2 := (s2.takeWhile wsChar).length
  let r2 := s2.drop w2
  let run := r2.takeWhile (fun c => !wsChar c)
  if run.isEmpty then (0, none) else (w1 + cLen + w2 + run.length, some run)

/-- Core of the model-directive pattern at a fixed position: slash,
the keyword model (case-insensitive) followed by end, whitespace or
colon, then the optional argument tail. -/
def matchModelCore (s : List Char) : Option (Nat × Option (List Char)) :=
  match s with
  | '/' :: rest =>
    if isPrefixCI "model".data rest && kwLookahead (rest.drop 5) then
      let (n, cap) := matchTailOpt (rest.drop 5)
      some (5 + n + 1, cap)
    else none
  | _ => none

/-- Modelled from the spec: extractModelDirective of model.js is not
among the provided sources.  Mirroring the sibling extractors, it
recognizes an inline /model selector preceded by start of input or
whitespace, with an optional argument token; the matched text is
removed from the body, whitespace collapsed and the result trimmed;
without an argument the directive lists models instead of selecting
one (rawModel is then absent). -/
def extractModelDirective (body : String) : ModelDirectiveResult :=
  if body = "" then ⟨"", none, false⟩
  else
    match scanFrom matchModelCore body.data true with
    | none => ⟨String.mk (trimChars body.data), none, false⟩
    | some (idx, len, cap) =>
      let m0 := (body.data.drop idx).take len
      let cleaned := trimChars (collapseWs (replaceFirstStr body.data m0))
      ⟨String.mk cleaned, cap.map String.mk, true⟩

/-- ABORT_TRIGGERS of part_000. -/
def ABORT_TRIGGERS : List String := ["stop", "esc", "abort", "wait", "exit"]

/-- isAbortTrigger of part_000: membership of the trimmed, lowercased
body in the abort set; an absent or empty body is no trigger. -/
def isAbortTrigger (text : String) : Bool :=
  if text = "" then false
  else ABORT_TRIGGERS.contains (String.mk (toLowerStr (trimChars text.data)))

/-- Modelled from the spec: resolveSessionKey of config/sessions.js is
not among the provided sources.  Per the spec, the key is derived from
the channel identity under the scoping policy: the fixed main key for
the shared scope and the channel (From) identity for the per-sender
and per-group scopes; an unresolvable identity falls back to an
unknown bucket. -/
def resolveSessionKey (scope : SessionScope) (ctx : MsgContext) (mainKey : String) : String :=
  match scope with
  | .main => mainKey
  | .perSender => ctx.From.getD "unknown"
  | .perGroup => ctx.From.getD "unknown"

/-- SYSTEM_MARK of part_000. -/
def SYSTEM_MARK : String := "⚙️"

/-- Modelled from the spec: SILENT_REPLY_TOKEN of tokens.js is not
among the provided sources; its concrete value is irrelevant to every
claim. -/
def SILENT_REPLY_TOKEN : String := "SILENT_REPLY"

/-- BARE_SESSION_RESET_PROMPT of part_000: the canonical bootstrap
prompt substituted for an empty body on a fresh reset. -/
def BARE_SESSION_RESET_PROMPT : String :=
  "A new session was started via /new or /reset. Say hi briefly (1-2 sentences) and ask what the user wants to do next. Do not mention internal steps, files, tools, or reasoning."

/-! ### Conversation turn orchestrator (part_000, getReplyFromConfig)

The orchestrator is embedded as a pure function over the threaded
session store.  External collaborators are inputs: the model catalog,
the queued system events and provider summary, the workspace skill
snapshot, and whether a pending-input queue accepted the message.  All
Date.now() readings within one turn are modelled by the single instant
now, and the one crypto.randomUUID() that can matter by uuid.  Typing
callbacks, audio transcription, media notes and logging are not
modelled (text-only turns); the ABORT_MEMORY fallback map is
unreachable on this path because the session record is always
constructed before it would be consulted. -/

/-- scanResetTriggers: the reset-trigger loop of getReplyFromConfig.
The first trigger matching the trimmed raw body or the
mention-stripped normalized body, fully or as a word prefix, forces a
new session; a full match discards the body, a prefix match keeps the
remainder of the stripped body. -/
def scanResetTriggers : List String → String → String → Bool × Option String
  | [], _, _ => (false, none)
  | trigger :: rest, trimmedBody, strippedForReset =>
    if trigger = "" then scanResetTriggers rest trimmedBody strippedForReset
    else if trimmedBody = trigger || strippedForReset = trigger then (true, some "")
    else
      let trigPre := trigger ++ " "
      if trigPre.data.isPrefixOf trimmedBody.data || trigPre.data.isPrefixOf strippedForReset.data then
        (true, some (String.mk ((strippedForReset.data.drop trigger.length).dropWhile wsChar)))
      else scanResetTriggers rest trimmedBody strippedForReset

/-- The effective reset triggers: the configured non-empty list, else
the defaults. -/
def effectiveResetTriggers (cfg : ClawdisConfig) : List String :=
  let t := (cfg.session.map (·.resetTriggers)).getD []
  if t != [] then t else DEFAULT_RESET_TRIGGERS

/-- The effective idle window in minutes, clamped to at least one. -/
def effectiveIdleMinutes (cfg : ClawdisConfig) : Int :=
  max ((cfg.session.bind (·.idleMinutes)).getD DEFAULT_IDLE_MINUTES) 1

/-- The freshness check of the interactive turn path: a record exists
and now minus its updatedAt is at most the idle window in
milliseconds. -/
def sessionFreshness (entry : Option SessionEntry) (now idleMs : Int) : Bool :=
  match entry with
  | some e => decide (now - e.updatedAt ≤ idleMs)
  | none => false

/-- Outcome of the freshness decision: the session identity and the
carried flags and persisted levels. -/
structure FreshnessDecision where
  sessionId : String
  isNewSession : Bool
  systemSent : Bool
  abortedLastRun : Bool
  persistedThinking : Option String
  persistedVerbose : Option String
  persistedModelOverride : Option String
  persistedProviderOverride : Option String
  baseEntry : Option SessionEntry
deriving DecidableEq, Repr

/-- The freshness decision of getReplyFromConfig: without a reset, a
fresh record is reused (stored id, flags and persisted levels);
otherwise a fresh identifier is generated and the turn is marked
new. -/
def decideFreshness (resetNew : Bool) (entry : Option SessionEntry) (now idleMs : Int)
    (uuid : String) : FreshnessDecision :=
  let fresh := sessionFreshness entry now idleMs
  if !resetNew && fresh then
    match entry with
    | some e =>
      ⟨e.sessionId, false, e.systemSent.getD false, e.abortedLastRun.getD false,
        e.thinkingLevel, e.verboseLevel, e.modelOverride, e.providerOverride, some e⟩
    | none => ⟨uuid, true, false, false, none, none, none, none, none⟩
  else ⟨uuid, true, false, false, none, none, none, none, none⟩

/-- The record written on session resolution: the base-entry spread
with the resolved identity, the current timestamp, the flags and the
carried levels. -/
def buildSessionEntry (d : FreshnessDecision) (now : Int) : SessionEntry :=
  let b := d.baseEntry
  { sessionId := d.sessionId
    updatedAt := now
    systemSent := some d.systemSent
    abortedLastRun := some d.abortedLastRun
    thinkingLevel := d.persistedThinking <|> b.bind (·.thinkingLevel)
    verboseLevel := d.persistedVerbose <|> b.bind (·.verboseLevel)
    modelOverride := d.persistedModelOverride <|> b.bind (·.modelOverride)
    providerOverride := d.persistedProviderOverride <|> b.bind (·.providerOverride)
    groupActivation := b.bind (·.groupActivation)
    groupActivationNeedsSystemIntro := b.bind (·.groupActivationNeedsSystemIntro)
    inputTokens := b.bind (·.inputTokens)
    outputTokens := b.bind (·.outputTokens)
    totalTokens := b.bind (·.totalTokens)
    contextTokens := b.bind (·.contextTokens)
    model := b.bind (·.model)
    skillsSnapshot := b.bind (·.skillsSnapshot)
    lastChannel := b.bind (·.lastChannel)
    lastTo := b.bind (·.lastTo) }

/-- Result of the session-resolution stage. -/
structure SessResolution where
  mainKey : String
  isGroup : Bool
  triggerBodyNormalized : String
  trimmedBody : String
  strippedForReset : String
  bodyStripped : Option String
  sessionKey : String
  sessionId : String
  isNewSession : Bool
  systemSent : Bool
  abortedLastRun : Bool
  sessionEntry : SessionEntry
  store : Store

/-- Session resolution of getReplyFromConfig: settings, group test,
normalized bodies, the reset-trigger scan, key resolution, the
freshness decision and the first store write of the turn. -/
def resolveSession (cfg : ClawdisConfig) (ctx : MsgContext) (store : Store) (now : Int)
    (uuid : String) : SessResolution :=
  let mainKey := (cfg.session.bind (·.mainKey)).getD "main"
  let resetTriggers := effectiveResetTriggers cfg
  let idleMinutes := effectiveIdleMinutes cfg
  let sessionScope := (cfg.session.bind (·.scope)).getD SessionScope.perSender
  let isGroup := isGroupFrom ctx
  let triggerBodyNormalized :=
    String.mk (toLowerStr (trimChars (stripStructuralPrefixes (ctx.Body.getD "")).data))
  let trimmedBody := String.mk (trimChars (ctx.Body.getD "").data)
  let strippedForReset :=
    if isGroup then stripMentions triggerBodyNormalized ctx cfg else triggerBodyNormalized
  let (resetNew, bodyStripped) := scanResetTriggers resetTriggers trimmedBody strippedForReset
  let sessionKey := resolveSessionKey sessionScope ctx mainKey
  let entry := store sessionKey
  let idleMs := idleMinutes * 60000
  let d := decideFreshness resetNew entry now idleMs uuid
  let sessionEntry := buildSessionEntry d now
  ⟨mainKey, isGroup, triggerBodyNormalized, trimmedBody, strippedForReset, bodyStripped,
    sessionKey, d.sessionId, d.isNewSession, d.systemSent, d.abortedLastRun, sessionEntry,
    store.insert sessionKey sessionEntry⟩

/-- Result of the stored-override validation and effective-model
stage. -/
structure ModelGateResult where
  sessionEntry : SessionEntry
  store : Store
  resetModelOverride : Bool
  allowedModelKeys : List String
  allowedModelCatalog : List ModelCatalogEntry
  provider : String
  model : String
  contextTokens : Int

/-- The model gate of getReplyFromConfig: load the catalog when
needed, clear (and persist) a stored override that is outside a
non-empty allowed set, then compute the effective provider and model
from a surviving override, and the context tokens. -/
def modelGate (cfg : ClawdisConfig) (catalog : List ModelCatalogEntry)
    (defaultProvider defaultModel : String) (hasModelDirective : Bool)
    (entry : SessionEntry) (store : Store) (key : String) (now : Int) : ModelGateResult :=
  let hasAllowlist := ((cfg.agent.map (·.allowedModels)).getD []) != []
  let hasStoredOverride := optTruthy entry.modelOverride || optTruthy entry.providerOverride
  let needsModelCatalog := hasModelDirective || hasAllowlist || hasStoredOverride
  let (allowedModelKeys, allowedModelCatalog) :=
    if needsModelCatalog then
      let allowed := buildAllowedModelSet cfg catalog defaultProvider
      (allowed.allowedKeys, allowed.allowedCatalog)
    else ([], [])
  let (entry2, store2, resetModelOverride) :=
    if hasStoredOverride then
      let overrideProvider :=
        let t := String.mk (trimChars ((entry.providerOverride.getD "").data))
        if t = "" then defaultProvider else t
      let overrideModel := entry.modelOverride.map (fun s => String.mk (trimChars s.data))
      match overrideModel with
      | some om =>
        if om != "" then
          let okey := modelKey overrideProvider om
          if allowedModelKeys.length > 0 && !(allowedModelKeys.contains okey) then
            let e2 := { entry with
              providerOverride := none
              modelOverride := none
              updatedAt := now }
            (e2, store.insert key e2, true)
          else (entry, store, false)
        else (entry, store, false)
      | none => (entry, store, false)
    else (entry, store, false)
  let storedProviderOverride := entry2.providerOverride.map (fun s => String.mk (trimChars s.data))
  let storedModelOverride := entry2.modelOverride.map (fun s => String.mk (trimChars s.data))
  let (provider2, model2) :=
    if optTruthy storedModelOverride then
      let som := storedModelOverride.getD ""
      let candidateProvider :=
        if optTruthy storedProviderOverride then storedProviderOverride.getD ""
        else defaultProvider
      let ckey := modelKey candidateProvider som
      if allowedModelKeys.length = 0 || allowedModelKeys.contains ckey then
        (candidateProvider, som)
      else (defaultProvider, defaultModel)
    else (defaultProvider, defaultModel)
  let contextTokens :=
    ((cfg.agent.bind (·.contextTokens)) <|> lookupContextTokens model2).getD
      DEFAULT_CONTEXT_TOKENS
  ⟨entry2, store2, resetModelOverride, allowedModelKeys, allowedModelCatalog, provider2,
    model2, contextTokens⟩

/-- The arguments handed to the external agent engine. -/
structure AgentCallArgs where
  sessionId : String
  sessionKey : String
  prompt : String
  extraSystemPrompt : Option String
  provider : String
  model : String
  thinkLevel : Option String
  verboseLevel : Option String
  timeoutMs : Int
deriving DecidableEq, Repr

/-- Terminal outcome of the pre-delegation pipeline: no visible
response, a synchronous reply, or delegation to the agent engine. -/
inductive TurnOutcome where
  | noReply
  | reply (text : String)
  | delegate (args : AgentCallArgs)
deriving DecidableEq, Repr

/-- The directive-only test: some directive was present and the
cleaned remainder, after structural stripping (and mention stripping
in groups), is empty. -/
def directiveOnlyOf (isGroup : Bool) (ctx : MsgContext) (cfg : ClawdisConfig)
    (tr : ThinkDirectiveResult) (vr : VerboseDirectiveResult) (mr : ModelDirectiveResult) :
    Bool :=
  if !tr.hasDirective && !vr.hasDirective && !mr.hasDirective then false
  else
    let stripped := stripStructuralPrefixes mr.cleaned
    let noMentions := if isGroup then stripMentions stripped ctx cfg else stripped
    noMentions.length == 0

/-- An accepted inline model selection. -/
structure ModelSelection where
  provider : String
  model : String
  isDefault : Bool
deriving DecidableEq, Repr

/-- The pure-command block of getReplyFromConfig: list models on a
bare selector, correct an unrecognized think or verbose level, reject
an unknown or disallowed model, else persist the directive changes and
acknowledge.  Returns the reply, the record and the store as left by
the block. -/
def directiveOnlyBlock (tr : ThinkDirectiveResult) (vr : VerboseDirectiveResult)
    (mr : ModelDirectiveResult) (defaultProvider defaultModel : String) (g : ModelGateResult)
    (key : String) (now : Int) : TurnOutcome × SessionEntry × Store :=
  if mr.hasDirective && mr.rawModel.isNone then
    if g.allowedModelCatalog.isEmpty then (.reply "No models available.", g.sessionEntry, g.store)
    else
      let current := g.provider ++ "/" ++ g.model
      let defaultLabel := defaultProvider ++ "/" ++ defaultModel
      let header :=
        if current = defaultLabel then "Models (current: " ++ current ++ "):"
        else "Models (current: " ++ current ++ ", default: " ++ defaultLabel ++ "):"
      let catalogLines := g.allowedModelCatalog.map fun e =>
        let label := e.provider ++ "/" ++ e.id
        let suffix := match e.name with
          | some n => if n != "" && n != e.id then " — " ++ n else ""
          | none => ""
        "- " ++ label ++ suffix
      let lines := [header] ++
        (if g.resetModelOverride then ["(previous selection reset to default)"] else []) ++
        catalogLines
      (.reply (String.intercalate "\n" lines), g.sessionEntry, g.store)
  else if tr.hasDirective && tr.thinkLevel.isNone then
    (.reply ("Unrecognized thinking level \"" ++ tr.rawLevel.getD "" ++
      "\". Valid levels: off, minimal, low, medium, high."), g.sessionEntry, g.store)
  else if vr.hasDirective && vr.verboseLevel.isNone then
    (.reply ("Unrecognized verbose level \"" ++ vr.rawLevel.getD "" ++
      "\". Valid levels: off, on."), g.sessionEntry, g.store)
  else
    let sel : Except String (Option ModelSelection) :=
      match mr.hasDirective, mr.rawModel with
      | true, some raw =>
        match parseModelRef raw defaultProvider with
        | none =>
          .error ("Unrecognized model \"" ++ raw ++ "\". Use /model to list available models.")
        | some parsed =>
          let mkey := modelKey parsed.provider parsed.model
          if g.allowedModelKeys.length > 0 && !(g.allowedModelKeys.contains mkey) then
            .error ("Model \"" ++ parsed.provider ++ "/" ++ parsed.model ++
              "\" is not allowed. Use /model to list available models.")
          else
            .ok (some ⟨parsed.provider, parsed.model,
              parsed.provider = defaultProvider && parsed.model = defaultModel⟩)
      | _, _ => .ok none
    match sel with
    | .error msg => (.reply msg, g.sessionEntry, g.store)
    | .ok modelSelection =>
      let e0 := g.sessionEntry
      let e1 :=
        match tr.hasDirective, tr.thinkLevel with
        | true, some lvl =>
          if lvl = "off" then { e0 with thinkingLevel := none }
          else { e0 with thinkingLevel := some lvl }
        | _, _ => e0
      let e2 :=
        match vr.hasDirective, vr.verboseLevel with
        | true, some lvl =>
          if lvl = "off" then { e1 with verboseLevel := none }
          else { e1 with verboseLevel := some lvl }
        | _, _ => e1
      let e3 :=
        match modelSelection with
        | some s =>
          if s.isDefault then { e2 with providerOverride := none, modelOverride := none }
          else { e2 with providerOverride := some s.provider, modelOverride := some s.model }
        | none => e2
      let e4 := { e3 with updatedAt := now }
      let thinkParts :=
        match tr.hasDirective, tr.thinkLevel with
        | true, some lvl =>
          [if lvl = "off" then "Thinking disabled." else "Thinking level set to " ++ lvl ++ "."]
        | _, _ => []
      let verboseParts :=
        match vr.hasDirective, vr.verboseLevel with
        | true, some lvl =>
          [if lvl = "off" then SYSTEM_MARK ++ " Verbose logging disabled."
           else SYSTEM_MARK ++ " Verbose logging enabled."]
        | _, _ => []
      let modelParts :=
        match modelSelection with
        | some s =>
          let label := s.provider ++ "/" ++ s.model
          [if s.isDefault then "Model reset to default (" ++ label ++ ")."
           else "Model set to " ++ label ++ "."]
        | none => []
      let ack := String.mk (trimChars (String.intercalate " "
        (thinkParts ++ verboseParts ++ modelParts)).data)
      (.reply (if ack = "" then "OK." else ack), e4, g.store.insert key e4)

/-- Result of the inline persistence stage. -/
structure PersistInlineResult where
  sessionEntry : SessionEntry
  store : Store
  provider : String
  model : String
  contextTokens : Int

/-- Inline persistence of getReplyFromConfig: think, verbose and model
directives carried alongside further content are applied to the record
(an off level deletes the field; an unknown or disallowed model is
silently skipped), and a single save commits when anything changed. -/
def persistInline (cfg : ClawdisConfig) (tr : ThinkDirectiveResult)
    (vr : VerboseDirectiveResult) (mr : ModelDirectiveResult)
    (defaultProvider defaultModel : String) (g : ModelGateResult) (key : String) (now : Int) :
    PersistInlineResult :=
  let e0 := g.sessionEntry
  let (e1, u1) :=
    match tr.hasDirective, tr.thinkLevel with
    | true, some lvl =>
      (if lvl = "off" then { e0 with thinkingLevel := none }
       else { e0 with thinkingLevel := some lvl }, true)
    | _, _ => (e0, false)
  let (e2, u2) :=
    match vr.hasDirective, vr.verboseLevel with
    | true, some lvl =>
      (if lvl = "off" then { e1 with verboseLevel := none }
       else { e1 with verboseLevel := some lvl }, true)
    | _, _ => (e1, u1)
  let (e3, u3, provider3, model3, contextTokens3) :=
    match mr.hasDirective, mr.rawModel with
    | true, some raw =>
      match parseModelRef raw defaultProvider with
      | some parsed =>
        let mkey := modelKey parsed.provider parsed.model
        if g.allowedModelKeys.length = 0 || g.allowedModelKeys.contains mkey then
          let isDefault := parsed.provider = defaultProvider && parsed.model = defaultModel
          let e :=
            if isDefault then { e2 with providerOverride := none, modelOverride := none }
            else { e2 with
              providerOverride := some parsed.provider
              modelOverride := some parsed.model }
          let ctxT := ((cfg.agent.bind (·.contextTokens)) <|>
            lookupContextTokens parsed.model).getD DEFAULT_CONTEXT_TOKENS
          (e, true, parsed.provider, parsed.model, ctxT)
        else (e2, u2, g.provider, g.model, g.contextTokens)
      | none => (e2, u2, g.provider, g.model, g.contextTokens)
    | _, _ => (e2, u2, g.provider, g.model, g.contextTokens)
  if u3 then
    let e4 := { e3 with updatedAt := now }
    ⟨e4, g.store.insert key e4, provider3, model3, contextTokens3⟩
  else ⟨e3, g.store, provider3, model3, contextTokens3⟩

/-- The access-control data of getReplyFromConfig: addresses, the
same-phone test, the effective allow-from list, the normalized command
body, the activation command and the owner list. -/
structure AccessInfo where
  fromAddr : String
  toAddr : String
  isSamePhone : Bool
  allowFrom : Option (List String)
  commandBodyNormalized : String
  activation : ActivationCommand
  senderE164 : String
  ownerList : List String
  isOwnerSender : Bool

/-- Computation of the access-control data (the allow-from defaulting
to self-only DM access, the owner candidates and their E.164
normalization). -/
def accessInfoOf (cfg : ClawdisConfig) (ctx : MsgContext) (isGroup : Bool)
    (triggerBodyNormalized : String) : AccessInfo :=
  let configuredAllowFrom := cfg.routing.bind (·.allowFrom)
  let fromAddr := stripWhatsappScheme (ctx.From.getD "")
  let toAddr := stripWhatsappScheme (ctx.To.getD "")
  let isSamePhone := fromAddr != "" && toAddr != "" && fromAddr == toAddr
  let defaultAllowFrom :=
    if (match configuredAllowFrom with
        | none => true
        | some l => l.isEmpty) && toAddr != "" then some [toAddr]
    else none
  let allowFrom :=
    match configuredAllowFrom with
    | some l => if l != [] then some l else defaultAllowFrom
    | none => defaultAllowFrom
  let commandBodyNormalized :=
    if isGroup then stripMentions triggerBodyNormalized ctx cfg else triggerBodyNormalized
  let activation := parseActivationCommand commandBodyNormalized
  let senderE164 := normalizeE164 (ctx.SenderE164.getD "")
  let ownerCandidates := (allowFrom.getD []).filter fun e => e != "" && e != "*"
  let ownerCandidates2 :=
    if ownerCandidates.isEmpty && toAddr != "" then [toAddr] else ownerCandidates
  let ownerList := (ownerCandidates2.map normalizeE164).filter fun e => e != ""
  let isOwnerSender := senderE164 != "" && ownerList.contains senderE164
  ⟨fromAddr, toAddr, isSamePhone, allowFrom, commandBodyNormalized, activation, senderE164,
    ownerList, isOwnerSender⟩

/-- The sender gate: same-phone is always allowed; otherwise, in
direct chats with a non-empty allow-from list, a sender neither
wildcarded nor listed is silently dropped. -/
def accessDenied (a : AccessInfo) (isGroup : Bool) : Bool :=
  if a.isSamePhone then false
  else if !isGroup then
    match a.allowFrom with
    | some l => l.length > 0 && !(l.contains "*") && !(l.contains a.fromAddr)
    | none => false
  else false

/-- The /status reply text is produced by buildStatusMessage of
status.ts, a stateless formatter that the spec places outside the
session core; its content is irrelevant to every claim, so the
embedding stands in a fixed placeholder for it. -/
def statusTextPlaceholder : String := "(status)"

/-- The privileged special commands of getReplyFromConfig: group
activation (owner-gated, persists the mode and the intro flag),
restart (owner-gated in groups) and status (owner-gated in groups). -/
def specialCommands (a : AccessInfo) (isGroup : Bool) (entry : SessionEntry) (store : Store)
    (key : String) (now : Int) : Option (TurnOutcome × SessionEntry × Store) :=
  if a.activation.hasCommand then
    if !isGroup then
      some (.reply "⚙️ Group activation only applies to group chats.", entry, store)
    else if !a.isOwnerSender then some (.noReply, entry, store)
    else
      match a.activation.mode with
      | none => some (.reply "⚙️ Usage: /activation mention|always", entry, store)
      | some mode =>
        let e2 := { entry with
          groupActivation := some mode
          groupActivationNeedsSystemIntro := some true
          updatedAt := now }
        some (.reply ("⚙️ Group activation set to " ++ mode ++ "."), e2, store.insert key e2)
  else if a.commandBodyNormalized = "/restart" || a.commandBodyNormalized = "restart" ||
      "/restart ".data.isPrefixOf a.commandBodyNormalized.data then
    if isGroup && !a.isOwnerSender then some (.noReply, entry, store)
    else
      some (.reply "⚙️ Restarting clawdis via launchctl; give me a few seconds to come back online.",
        entry, store)
  else if a.commandBodyNormalized = "/status" || a.commandBodyNormalized = "status" ||
      "/status ".data.isPrefixOf a.commandBodyNormalized.data then
    if isGroup && !a.isOwnerSender then some (.noReply, entry, store)
    else some (.reply statusTextPlaceholder, entry, store)
  else none

/-- The abort step: an abort trigger marks the record aborted,
persists it and answers with the fixed acknowledgement. -/
def abortStep (rawBodyNormalized : String) (entry : SessionEntry) (store : Store)
    (key : String) (now : Int) : Option (TurnOutcome × SessionEntry × Store) :=
  if isAbortTrigger rawBodyNormalized then
    let e2 := { entry with abortedLastRun := some true, updatedAt := now }
    some (.reply "⚙️ Agent was aborted.", e2, store.insert key e2)
  else none

/-- The default group activation mode: always when requireMention is
configured exactly false, else mention. -/
def defaultGroupActivationOf (cfg : ClawdisConfig) : String :=
  if (cfg.routing.bind fun r => r.groupChat.bind (·.requireMention)) = some false then "always"
  else "mention"

/-- The group-intro system text of getReplyFromConfig, assembled from
the activation mode, the group subject and the members preview. -/
def buildGroupIntro (cfg : ClawdisConfig) (ctx : MsgContext) (entry : SessionEntry) : String :=
  let activation :=
    (normalizeGroupActivation entry.groupActivation).getD (defaultGroupActivationOf cfg)
  let subject := String.mk (trimChars ((ctx.GroupSubject.getD "").data))
  let members := String.mk (trimChars ((ctx.GroupMembers.getD "").data))
  let subjectLine :=
    if subject != "" then
      "You are replying inside the WhatsApp group \"" ++ subject ++ "\"."
    else "You are replying inside a WhatsApp group chat."
  let membersLine := if members != "" then ["Group members: " ++ members ++ "."] else []
  let activationLine :=
    if activation = "always" then "Activation: always-on (you receive every group message)."
    else "Activation: trigger-only (you are invoked only when explicitly mentioned; recent context may be included)."
  let silenceLine :=
    if activation = "always" then
      ["If no response is needed, reply with exactly \"" ++ SILENT_REPLY_TOKEN ++
        "\" (no other text) so Clawdis stays silent."]
    else []
  let cautionLine :=
    if activation = "always" then
      ["Be extremely selective: reply only when you are directly addressed, asked a question, or can add clear value. Otherwise stay silent."]
    else []
  String.intercalate " "
    ([subjectLine] ++ membersLine ++ [activationLine] ++ silenceLine ++ cautionLine) ++
    " Address the specific sender noted in the message context."

/-- Search for the chatty last-input segment of a Node status line:
the first case-insensitive occurrence of the literal pattern followed
by at least one character other than the separator dot. -/
def findPatRunAt (pat : List Char) (notChar : Char) : List Char → Option (Nat × Nat)
  | [] => none
  | c :: rest =>
    if isPrefixCI pat (c :: rest) then
      let run := ((c :: rest).drop pat.length).takeWhile fun d => d ≠ notChar
      if !run.isEmpty then some (0, pat.length + run.length)
      else (findPatRunAt pat notChar rest).map fun p => (p.1 + 1, p.2)
    else (findPatRunAt pat notChar rest).map fun p => (p.1 + 1, p.2)

/-- Removal of the last-input segment from a Node line (the
replacement of the first match by the empty string). -/
def stripLastInputSegment (l : List Char) : List Char :=
  match findPatRunAt " · last input ".data '·' l with
  | some (i, n) => l.take i ++ l.drop (i + n)
  | none => l

/-- compactSystemEvent of getReplyFromConfig: drop empty, periodic and
heartbeat lines; shorten Node lines by their last-input segment. -/
def compactSystemEvent (line : String) : Option String :=
  let trimmed := trimChars line.data
  if trimmed.isEmpty then none
  else
    let lower := toLowerStr trimmed
    if (listIndexOf "reason periodic".data lower).isSome then none
    else if (listIndexOf "heartbeat".data lower).isSome then none
    else if "Node:".data.isPrefixOf trimmed then
      some (String.mk (trimChars (stripLastInputSegment trimmed)))
    else some (String.mk trimmed)

/-- JavaScript split on whitespace runs: leading or trailing runs
produce empty tokens, as String.prototype.split with the ws-plus
pattern does. -/
def splitWsTokens : Nat → List Char → List (List Char)
  | 0, _ => []
  | f + 1, l =>
    let t := l.takeWhile fun c => !wsChar c
    let r := l.drop t.length
    match r with
    | [] => [t]
    | _ :: _ => t :: splitWsTokens f (r.dropWhile wsChar)

/-- Entry point of the whitespace split. -/
def splitWsJS (l : List Char) : List (List Char) := splitWsTokens (l.length + 1) l

/-- The prompt-assembly phase of getReplyFromConfig: group intro,
bare-reset bootstrap prompt, the empty-body guard, the aborted hint,
main-session system lines, the first-turn and snapshot store writes,
the stray-level fallback and the pending-input queue check; ends in a
terminal reply or the delegation arguments. -/
def promptPhase (cfg : ClawdisConfig) (ctx : MsgContext) (sr : SessResolution)
    (entry : SessionEntry) (store : Store) (provider model : String)
    (resolvedThinkLevel0 resolvedVerboseLevel : Option String) (modelCleaned : String)
    (timeoutMs : Int) (systemEvents providerSummary : List String)
    (skillSnapshotParam : Option String) (queueHit : Bool) (now : Int) :
    TurnOutcome × SessionEntry × Store × Bool :=
  let isFirstTurnInSession := sr.isNewSession || !sr.systemSent
  let isGroupChat := ctx.ChatType == some "group"
  let shouldInjectGroupIntro :=
    isGroupChat && (isFirstTurnInSession || entry.groupActivationNeedsSystemIntro == some true)
  let groupIntro := if shouldInjectGroupIntro then buildGroupIntro cfg ctx entry else ""
  let baseBody := modelCleaned
  let rawBodyTrimmed := String.mk (trimChars ((ctx.Body.getD "").data))
  let baseBodyTrimmedRaw := String.mk (trimChars baseBody.data)
  let isBareSessionReset :=
    sr.isNewSession && baseBodyTrimmedRaw == "" && rawBodyTrimmed != ""
  let baseBodyFinal := if isBareSessionReset then BARE_SESSION_RESET_PROMPT else baseBody
  let baseBodyTrimmed := String.mk (trimChars baseBodyFinal.data)
  if baseBodyTrimmed = "" then
    (.reply "I didn't receive any text in your message. Please resend or add a caption.",
      entry, store, shouldInjectGroupIntro)
  else
    let abortedHint :=
      if sr.abortedLastRun then
        "Note: The previous agent run was aborted by the user. Resume carefully or ask for clarification."
      else ""
    let (prefixedBodyBase1, entry1, store1) :=
      if abortedHint != "" then
        let e := { entry with abortedLastRun := some false, updatedAt := now }
        (abortedHint ++ "\n\n" ++ baseBodyFinal, e, store.insert sr.sessionKey e)
      else (baseBodyFinal, entry, store)
    let isGroupSession := isGroupFrom ctx
    let isMainSession :=
      !isGroupSession && sr.sessionKey == ((cfg.session.bind (·.mainKey)).getD "main")
    let prefixedBodyBase2 :=
      if isMainSession then
        let systemLines0 := systemEvents.filterMap compactSystemEvent
        let systemLines :=
          if sr.isNewSession then providerSummary ++ systemLines0 else systemLines0
        if systemLines != [] then
          String.intercalate "\n" (systemLines.map fun l => "System: " ++ l) ++ "\n\n" ++
            prefixedBodyBase1
        else prefixedBodyBase1
      else prefixedBodyBase1
    let (entry2, store2) :=
      if isFirstTurnInSession then
        let e := { entry1 with
          sessionId := sr.sessionId
          updatedAt := now
          systemSent := some true
          skillsSnapshot := skillSnapshotParam }
        (e, store1.insert sr.sessionKey e)
      else (entry1, store1)
    let skillsSnapshot :=
      entry2.skillsSnapshot <|> (if isFirstTurnInSession then none else skillSnapshotParam)
    let (entry3, store3) :=
      if skillsSnapshot.isSome && !isFirstTurnInSession && entry2.skillsSnapshot.isNone then
        let e := { entry2 with
          sessionId := sr.sessionId
          updatedAt := now
          skillsSnapshot := skillsSnapshot }
        (e, store2.insert sr.sessionKey e)
      else (entry2, store2)
    let commandBody0 := prefixedBodyBase2
    let (resolvedThinkLevel, commandBody) :=
      if resolvedThinkLevel0.isNone && commandBody0 != "" then
        let parts := splitWsJS commandBody0.data
        match normalizeThinkLevel (some (String.mk (parts.headD []))) with
        | some lvl =>
          (some lvl,
            String.mk (trimChars (String.intercalate " " ((parts.drop 1).map String.mk)).data))
        | none => (resolvedThinkLevel0, commandBody0)
      else (resolvedThinkLevel0, commandBody0)
    if queueHit then
      let e := { entry3 with updatedAt := now }
      (.noReply, e, store3.insert sr.sessionKey e, shouldInjectGroupIntro)
    else
      (.delegate ⟨sr.sessionId, sr.sessionKey, commandBody,
        (if groupIntro != "" then some groupIntro else none), provider, model,
        resolvedThinkLevel, resolvedVerboseLevel, timeoutMs⟩,
        entry3, store3, shouldInjectGroupIntro)

/-- Result of one pre-delegation turn: the outcome, the final local
record and saved store, and the trace data the post-call phase
needs. -/
structure TurnResult where
  outcome : TurnOutcome
  sessionEntry : SessionEntry
  store : Store
  isNewSession : Bool
  cleanedBody : String
  shouldInjectGroupIntro : Bool
  resolvedVerboseLevel : Option String
  sessionKey : String
  sessionId : String
  defaultModel : String

/-- getReplyFromConfig up to the external agent call: the full
pre-delegation pipeline in source order. -/
def runTurn (cfg : ClawdisConfig) (ctx : MsgContext) (store : Store) (now : Int)
    (uuid : String) (catalog : List ModelCatalogEntry)
    (systemEvents providerSummary : List String) (skillSnapshotParam : Option String)
    (queueHit : Bool) : TurnResult :=
  let dref := resolveConfiguredModelRef cfg DEFAULT_PROVIDER DEFAULT_MODEL
  let defaultProvider := dref.provider
  let defaultModel := dref.model
  let timeoutSeconds := max ((cfg.agent.bind (·.timeoutSeconds)).getD 600) 1
  let timeoutMs := timeoutSeconds * 1000
  let sr := resolveSession cfg ctx store now uuid
  let extractInput := (sr.bodyStripped <|> ctx.Body).getD ""
  let tr := extractThinkDirective extractInput
  let vr := extractVerboseDirective tr.cleaned
  let mr := extractModelDirective vr.cleaned
  let modelCleaned := mr.cleaned
  let resolvedThinkLevel0 :=
    tr.thinkLevel <|> sr.sessionEntry.thinkingLevel <|> (cfg.agent.bind (·.thinkingDefault))
  let resolvedVerboseLevel :=
    vr.verboseLevel <|> sr.sessionEntry.verboseLevel <|> (cfg.agent.bind (·.verboseDefault))
  let g := modelGate cfg catalog defaultProvider defaultModel mr.hasDirective sr.sessionEntry
    sr.store sr.sessionKey now
  if directiveOnlyOf sr.isGroup ctx cfg tr vr mr then
    let (outcome, e, st) := directiveOnlyBlock tr vr mr defaultProvider defaultModel g
      sr.sessionKey now
    ⟨outcome, e, st, sr.isNewSession, modelCleaned, false, resolvedVerboseLevel, sr.sessionKey,
      sr.sessionId, defaultModel⟩
  else
    let p := persistInline cfg tr vr mr defaultProvider defaultModel g sr.sessionKey now
    let a := accessInfoOf cfg ctx sr.isGroup sr.triggerBodyNormalized
    if accessDenied a sr.isGroup then
      ⟨.noReply, p.sessionEntry, p.store, sr.isNewSession, modelCleaned, false,
        resolvedVerboseLevel, sr.sessionKey, sr.sessionId, defaultModel⟩
    else
      match specialCommands a sr.isGroup p.sessionEntry p.store sr.sessionKey now with
      | some (o, e, st) =>
        ⟨o, e, st, sr.isNewSession, modelCleaned, false, resolvedVerboseLevel, sr.sessionKey,
          sr.sessionId, defaultModel⟩
      | none =>
        match abortStep sr.triggerBodyNormalized p.sessionEntry p.store sr.sessionKey now with
        | some (o, e, st) =>
          ⟨o, e, st, sr.isNewSession, modelCleaned, false, resolvedVerboseLevel, sr.sessionKey,
            sr.sessionId, defaultModel⟩
        | none =>
          let (o, e, st, inj) := promptPhase cfg ctx sr p.sessionEntry p.store p.provider
            p.model resolvedThinkLevel0 resolvedVerboseLevel modelCleaned timeoutMs
            systemEvents providerSummary skillSnapshotParam queueHit now
          ⟨o, e, st, sr.isNewSession, modelCleaned, inj, resolvedVerboseLevel, sr.sessionKey,
            sr.sessionId, defaultModel⟩

/-- Usage metadata returned by the agent engine. -/
structure AgentUsage where
  input : Option Int := none
  output : Option Int := none
  cacheRead : Option Int := none
  cacheWrite : Option Int := none
  total : Option Int := none
deriving DecidableEq, Repr

/-- One reply payload. -/
structure ReplyPayload where
  text : Option String := none
  mediaUrls : List String := []
deriving DecidableEq, Repr

/-- The agent engine result contract. -/
structure AgentRunResult where
  payloads : List ReplyPayload
  metaModel : Option String := none
  usage : Option AgentUsage := none
deriving DecidableEq, Repr

/-- The post-delegation phase of getReplyFromConfig: clear the one-shot
group-intro flag, return nothing on an empty payload list, persist
usage and model, and prepend the new-session banner when verbose. -/
def postProcess (cfg : ClawdisConfig) (r : TurnResult) (res : AgentRunResult) (now : Int) :
    Store × Option (List ReplyPayload) :=
  let (entry1, store1) :=
    if r.shouldInjectGroupIntro && r.sessionEntry.groupActivationNeedsSystemIntro == some true
    then
      let e := { r.sessionEntry with
        groupActivationNeedsSystemIntro := some false
        updatedAt := now }
      (e, r.store.insert r.sessionKey e)
    else (r.sessionEntry, r.store)
  let payloadArray := res.payloads
  if payloadArray.isEmpty then (store1, none)
  else
    let modelUsed := res.metaModel.getD r.defaultModel
    let contextTokensUsed :=
      ((cfg.agent.bind (·.contextTokens)) <|> lookupContextTokens modelUsed <|>
        entry1.contextTokens).getD DEFAULT_CONTEXT_TOKENS
    let (_, store2) :=
      match res.usage with
      | some u =>
        let input := u.input.getD 0
        let output := u.output.getD 0
        let promptTokens := input + u.cacheRead.getD 0 + u.cacheWrite.getD 0
        let e := { entry1 with
          inputTokens := some input
          outputTokens := some output
          totalTokens := some (if promptTokens > 0 then promptTokens else u.total.getD input)
          model := some modelUsed
          contextTokens := some contextTokensUsed
          updatedAt := now }
        (e, store1.insert r.sessionKey e)
      | none =>
        let e := { entry1 with
          model := some modelUsed
          contextTokens := some contextTokensUsed }
        (e, store1.insert r.sessionKey e)
    let finalPayloads :=
      if r.resolvedVerboseLevel == some "on" && r.isNewSession then
        { text := some ("🧭 New session: " ++ r.sessionId), mediaUrls := [] } :: payloadArray
      else payloadArray
    (store2, some finalPayloads)

/-- getReplyFromConfig including the external agent call: the
pre-delegation pipeline, then either the terminal outcome, or the
agent result; a rejection of the engine call propagates unchanged (the
only handler on the path is a finally that stops the typing loop), and
the store stays as committed before the call. -/
def runTurnWithAgent (cfg : ClawdisConfig) (ctx : MsgContext) (store : Store) (now : Int)
    (uuid : String) (catalog : List ModelCatalogEntry)
    (systemEvents providerSummary : List String) (skillSnapshotParam : Option String)
    (queueHit : Bool) (agentResult : Except String AgentRunResult) :
    Store × Except String (Option (List ReplyPayload)) :=
  let r := runTurn cfg ctx store now uuid catalog systemEvents providerSummary
    skillSnapshotParam queueHit
  match r.outcome with
  | .noReply => (r.store, .ok none)
  | .reply t => (r.store, .ok (some [{ text := some t, mediaUrls := [] }]))
  | .delegate _ =>
    match agentResult with
    | .error e => (r.store, .error e)
    | .ok res =>
      let (st, payloads) := postProcess cfg r res now
      (st, .ok payloads)

/-! ### Cron session path (src/src/cron/isolated-agent.ts)

The embedding covers resolveCronSession and the store-related portion
of runCronIsolatedAgentTurn; the delivery tail (channel sends) does
not touch the session store and is outside the model. -/

/-- Result of resolveCronSession. -/
structure CronSessionResolution where
  store : Store
  sessionEntry : SessionEntry
  systemSent : Bool
  isNewSession : Bool

/-- resolveCronSession of isolated-agent.ts: the freshness check of
the cron path, and the rebuilt record containing exactly the carried
subset of fields (sessionId, updatedAt, systemSent, thinkingLevel,
verboseLevel, model, contextTokens, lastChannel, lastTo). -/
def resolveCronSession (cfg : ClawdisConfig) (store : Store) (sessionKey : String)
    (nowMs : Int) (uuid : String) : CronSessionResolution :=
  let idleMinutes := effectiveIdleMinutes cfg
  let idleMs := idleMinutes * 60000
  let entry := store sessionKey
  let fresh := sessionFreshness entry nowMs idleMs
  let sessionId := if fresh then (entry.map (·.sessionId)).getD uuid else uuid
  let systemSent := if fresh then (entry.bind (·.systemSent)).getD false else false
  let sessionEntry : SessionEntry :=
    { sessionId := sessionId
      updatedAt := nowMs
      systemSent := some systemSent
      thinkingLevel := entry.bind (·.thinkingLevel)
      verboseLevel := entry.bind (·.verboseLevel)
      model := entry.bind (·.model)
      contextTokens := entry.bind (·.contextTokens)
      lastChannel := entry.bind (·.lastChannel)
      lastTo := entry.bind (·.lastTo) }
  ⟨store, sessionEntry, systemSent, !fresh⟩

/-- Result of the cron turn: the status string, the agent call
arguments and the saved store. -/
structure CronTurnResult where
  status : String
  callArgs : AgentCallArgs
  store : Store

/-- runCronIsolatedAgentTurn of isolated-agent.ts (store-related
portion): resolve the cron session, write the skills snapshot when
needed, persist systemSent before the run, call the engine on the
configured default provider and model, and on success write the usage
and model fields back; an engine rejection returns an error status
with the store as committed before the call. -/
def runCronIsolatedAgentTurn (cfg : ClawdisConfig) (store : Store) (sessionKey : String)
    (message : String) (jobId jobName : String) (jobThinking : Option String)
    (jobTimeout : Option Int) (now : Int) (uuid : String)
    (skillSnapshotParam : Option String) (agentResult : Except String AgentRunResult) :
    CronTurnResult :=
  let dref := resolveConfiguredModelRef cfg DEFAULT_PROVIDER DEFAULT_MODEL
  let provider := dref.provider
  let model := dref.model
  let cron0 := resolveCronSession cfg store sessionKey now uuid
  let isFirstTurnInSession := cron0.isNewSession || !cron0.systemSent
  let thinkOverride := normalizeThinkLevel (cfg.agent.bind (·.thinkingDefault))
  let jobThink := normalizeThinkLevel jobThinking
  let thinkLevel := jobThink <|> thinkOverride
  let timeoutSecondsRaw :=
    match jobTimeout with
    | some t => if t ≠ 0 then t else (cfg.agent.bind (·.timeoutSeconds)).getD 600
    | none => (cfg.agent.bind (·.timeoutSeconds)).getD 600
  let timeoutSeconds := max timeoutSecondsRaw 1
  let timeoutMs := timeoutSeconds * 1000
  let commandBody :=
    String.mk (trimChars ("[cron:" ++ jobId ++ " " ++ jobName ++ "] " ++ message).data)
  let verboseLevel := cron0.sessionEntry.verboseLevel <|> (cfg.agent.bind (·.verboseDefault))
  let callArgs : AgentCallArgs :=
    ⟨cron0.sessionEntry.sessionId, sessionKey, commandBody, none, provider, model, thinkLevel,
      verboseLevel, timeoutMs⟩
  let needsSkillsSnapshot := cron0.isNewSession || cron0.sessionEntry.skillsSnapshot.isNone
  let skillsSnapshot :=
    if needsSkillsSnapshot then skillSnapshotParam else cron0.sessionEntry.skillsSnapshot
  let (entry1, store1) :=
    if needsSkillsSnapshot && skillsSnapshot.isSome then
      let e := { cron0.sessionEntry with updatedAt := now, skillsSnapshot := skillsSnapshot }
      (e, cron0.store.insert sessionKey e)
    else (cron0.sessionEntry, cron0.store)
  let (entry2, store2) :=
    if isFirstTurnInSession then
      let e := { entry1 with systemSent := some true }
      (e, store1.insert sessionKey e)
    else (entry1, store1.insert sessionKey entry1)
  match agentResult with
  | .error _ => ⟨"error", callArgs, store2⟩
  | .ok res =>
    let modelUsed := res.metaModel.getD model
    let contextTokens :=
      ((cfg.agent.bind (·.contextTokens)) <|> lookupContextTokens modelUsed).getD
        DEFAULT_CONTEXT_TOKENS
    let e3a := { entry2 with model := some modelUsed, contextTokens := some contextTokens }
    let e3 :=
      match res.usage with
      | some u =>
        let input := u.input.getD 0
        let output := u.output.getD 0
        let promptTokens := input + u.cacheRead.getD 0 + u.cacheWrite.getD 0
        { e3a with
          inputTokens := some input
          outputTokens := some output
          totalTokens := some (if promptTokens > 0 then promptTokens else u.total.getD input) }
      | none => e3a
    ⟨"ok", callArgs, store2.insert sessionKey e3⟩

/-! ### Shared concrete fixtures for the orchestrator theorems -/

/-- A minimal direct-chat configuration: wildcard allow-from, defaults
everywhere else. -/
def cfgBase : ClawdisConfig :=
  { agent := some {}, routing := some { allowFrom := some ["*"] }, session := some {} }

/-- A direct-chat message context with the given body. -/
def ctxWith (body : String) : MsgContext :=
  { From := some "+1555", To := some "+1999", Body := some body, SenderE164 := some "+1555" }

/-- A group configuration whose only owner candidate is the allow-from
number. -/
def cfgGroup : ClawdisConfig :=
  { agent := some {}, routing := some { allowFrom := some ["+15550001111"] },
    session := some {} }

/-- A group message context with the given body and sender. -/
def ctxGroup (body sender : String) : MsgContext :=
  { From := some "group:g1", To := some "+1999", Body := some body,
    SenderE164 := some sender }


/-- The pre-turn store of the group special-command scenarios (claim
C5): one existing record under the group key. -/
def st0C5 : Store := emptyStore.insert "group:g1" { sessionId := "sid0", updatedAt := 0 }

/-- The record written by session resolution in that scenario. -/
def entC5 : SessionEntry :=
  { sessionId := "sid0", updatedAt := 1000, systemSent := some false,
                         abortedLastRun := some false }

/-- The store after the session-resolution write of that scenario. -/
def st1C5 : Store := st0C5.insert "group:g1" entC5

/-- The session resolution of that scenario, spelled out. -/
def srC5 (body : String) : SessResolution :=
  ⟨"main", true, body, body, body, none, "group:g1", "sid0", false, false, false, entC5, st1C5⟩

/-- Discriminator: the outcome delegates to the agent engine. -/
def isDelegateOutcome : TurnOutcome → Bool
  | .delegate _ => true
  | _ => false

/-- A list of JavaScript whitespace characters. -/
def WSL (w : List Char) : Prop := ∀ c ∈ w, wsChar c = true

/-- The keyword lists of the directive regexes: every character
lower-cases to an ASCII letter. -/
def KWOK (kw : List Char) : Prop :=
  ∀ c ∈ kw, 97 ≤ (lowerChar c).toNat ∧ (lowerChar c).toNat ≤ 122

/-- Lookahead predicates invariant under appending whitespace. -/
def LOOKP (look : List Char → Bool) : Prop :=
  ∀ y w, WSL w → look (y ++ w) = look y

/-! ## Theorems -/

/-- Claim C1: for a record last updated at T and an idle window of
idleMs milliseconds, the freshness check of the interactive turn path
classifies the record as fresh at every now with now - T at most
idleMs (in particular at T + idleMs) and as stale whenever now - T
exceeds idleMs (in particular at T + idleMs + 1); a fresh record has
its sessionId reused and the turn is not marked new, otherwise a fresh
identifier is generated and isNewSession is set. -/
theorem claim_c1_freshness_boundary (e : SessionEntry) (now idleMs : Int) (uuid : String) :
    ((now - e.updatedAt ≤ idleMs) →
      sessionFreshness (some e) now idleMs = true ∧
      (decideFreshness false (some e) now idleMs uuid).sessionId = e.sessionId ∧
      (decideFreshness false (some e) now idleMs uuid).isNewSession = false) ∧
    ((idleMs < now - e.updatedAt) →
      sessionFreshness (some e) now idleMs = false ∧
      (decideFreshness false (some e) now idleMs uuid).sessionId = uuid ∧
      (decideFreshness false (some e) now idleMs uuid).isNewSession = true) := by
  constructor
  · intro h
    simp [sessionFreshness, decideFreshness, h]
  · intro h
    simp [sessionFreshness, decideFreshness, not_le.mpr h]

/-- Witness for C1 at both boundary edges: with T = 0 and a window of
60000 milliseconds, the record is fresh (id reused, not marked new) at
now = 60000 and stale (fresh id, marked new) at now = 60001. -/
theorem claim_c1_freshness_boundary_witness :
    ((decideFreshness false (some { sessionId := "sid", updatedAt := 0 }) 60000 60000
      "u").sessionId = "sid" ∧
     (decideFreshness false (some { sessionId := "sid", updatedAt := 0 }) 60000 60000
      "u").isNewSession = false) ∧
    ((decideFreshness false (some { sessionId := "sid", updatedAt := 0 }) 60001 60000
      "u").sessionId = "u" ∧
     (decideFreshness false (some { sessionId := "sid", updatedAt := 0 }) 60001 60000
      "u").isNewSession = true) :=
  ⟨⟨((claim_c1_freshness_boundary { sessionId := "sid", updatedAt := 0 } 60000 60000
      "u").1 (by decide)).2.1,
    ((claim_c1_freshness_boundary { sessionId := "sid", updatedAt := 0 } 60000 60000
      "u").1 (by decide)).2.2⟩,
   ⟨((claim_c1_freshness_boundary { sessionId := "sid", updatedAt := 0 } 60001 60000
      "u").2 (by decide)).2.1,
    ((claim_c1_freshness_boundary { sessionId := "sid", updatedAt := 0 } 60001 60000
      "u").2 (by decide)).2.2⟩⟩

/-- Claim C4: an allow-list whose intersection with the catalog is
empty yields the same result as no allow-list at all: allowAny, the
full catalog and the full catalog key set. -/
theorem claim_c4_allowlist_fail_open (cfg : ClawdisConfig) (catalog : List ModelCatalogEntry)
    (dp : String)
    (hne : (cfg.agent.map (·.allowedModels)).getD [] ≠ [])
    (hempty : catalog.filter (fun e =>
      (allowlistKeysOf ((cfg.agent.map (·.allowedModels)).getD []) dp
        (catalogKeysOf catalog)).contains (modelKey e.provider e.id)) = []) :
    buildAllowedModelSet cfg catalog dp =
      buildAllowedModelSet
        { cfg with agent := cfg.agent.map (fun a => { a with allowedModels := [] }) }
        catalog dp ∧
    buildAllowedModelSet cfg catalog dp =
      ⟨true, catalog, catalogKeysOf catalog⟩ := by
  have h2 : buildAllowedModelSet cfg catalog dp = ⟨true, catalog, catalogKeysOf catalog⟩ := by
    unfold buildAllowedModelSet
    simp only [List.length_eq_zero]
    rw [if_neg hne, hempty]
    simp
  have h3 : buildAllowedModelSet
      { cfg with agent := cfg.agent.map (fun a => { a with allowedModels := [] }) }
      catalog dp = ⟨true, catalog, catalogKeysOf catalog⟩ := by
    unfold buildAllowedModelSet
    rcases cfg.agent with _ | a <;> simp
  exact ⟨h2.trans h3.symm, h2⟩

/-- Witness for C4: a one-entry allow-list missing from a one-entry
catalog behaves exactly like no allow-list. -/
theorem claim_c4_allowlist_fail_open_witness :
    buildAllowedModelSet { agent := some { allowedModels := ["other/m2"] } }
      [{ provider := "anthropic", id := "m1" }] "anthropic" =
      ⟨true, [{ provider := "anthropic", id := "m1" }],
        catalogKeysOf [{ provider := "anthropic", id := "m1" }]⟩ :=
  (claim_c4_allowlist_fail_open { agent := some { allowedModels := ["other/m2"] } }
    [{ provider := "anthropic", id := "m1" }] "anthropic" (by decide) (by decide)).2

/-- Claim C3 counterexample: when the configured default pair
(anthropic/m1, from agent.model) is outside the non-empty allowed set,
an inline selection of exactly the default pair is rejected with the
not-allowed message and the persisted override fields keep their old
values instead of being cleared, contradicting the claim. -/
theorem claim_c3_counterexample :
    (applyModelSelectionStore "anthropic/m1"
      (resolveConfiguredModelRef
        { agent := some { model := some "anthropic/m1", allowedModels := ["other/m2"] } }
        DEFAULT_PROVIDER DEFAULT_MODEL).provider
      (resolveConfiguredModelRef
        { agent := some { model := some "anthropic/m1", allowedModels := ["other/m2"] } }
        DEFAULT_PROVIDER DEFAULT_MODEL).model
      (buildAllowedModelSet
        { agent := some { model := some "anthropic/m1", allowedModels := ["other/m2"] } }
        [{ provider := "other", id := "m2" }] "anthropic").allowedKeys
      (emptyStore.insert "k"
        { sessionId := "s", updatedAt := 0, modelOverride := some "old",
          providerOverride := some "op" })
      "k"
      { sessionId := "s", updatedAt := 0, modelOverride := some "old",
        providerOverride := some "op" } 5).2 =
      some "Model \"anthropic/m1\" is not allowed. Use /model to list available models." ∧
    ((applyModelSelectionStore "anthropic/m1"
      (resolveConfiguredModelRef
        { agent := some { model := some "anthropic/m1", allowedModels := ["other/m2"] } }
        DEFAULT_PROVIDER DEFAULT_MODEL).provider
      (resolveConfiguredModelRef
        { agent := some { model := some "anthropic/m1", allowedModels := ["other/m2"] } }
        DEFAULT_PROVIDER DEFAULT_MODEL).model
      (buildAllowedModelSet
        { agent := some { model := some "anthropic/m1", allowedModels := ["other/m2"] } }
        [{ provider := "other", id := "m2" }] "anthropic").allowedKeys
      (emptyStore.insert "k"
        { sessionId := "s", updatedAt := 0, modelOverride := some "old",
          providerOverride := some "op" })
      "k"
      { sessionId := "s", updatedAt := 0, modelOverride := some "old",
        providerOverride := some "op" } 5).1 "k") =
      some { sessionId := "s", updatedAt := 0, modelOverride := some "old",
             providerOverride := some "op" } := by
  decide

/-- Claim C3 amended: selecting exactly the configured default pair
clears the persisted override fields provided the default pair is
inside the allowed set (or no allowed set is in force); selecting a
non-default allowed pair persists exactly that provider and model;
selecting a pair outside a non-empty allowed set is rejected with the
user-facing message and the store is unchanged. -/
theorem claim_c3_model_override_roundtrip (raw dp dm : String) (keys : List String)
    (store : Store) (k : String) (entry : SessionEntry) (now : Int) :
    (parseModelRef raw dp = some ⟨dp, dm⟩ →
      (keys = [] ∨ keys.contains (modelKey dp dm) = true) →
      applyModelSelectionStore raw dp dm keys store k entry now =
        (store.insert k
          { entry with providerOverride := none, modelOverride := none, updatedAt := now },
          none)) ∧
    (∀ p m, parseModelRef raw dp = some ⟨p, m⟩ → ¬(p = dp ∧ m = dm) →
      keys.contains (modelKey p m) = true →
      applyModelSelectionStore raw dp dm keys store k entry now =
        (store.insert k
          { entry with providerOverride := some p, modelOverride := some m,
                       updatedAt := now },
          none)) ∧
    (∀ p m, parseModelRef raw dp = some ⟨p, m⟩ → keys ≠ [] →
      keys.contains (modelKey p m) = false →
      applyModelSelectionStore raw dp dm keys store k entry now =
        (store,
          some ("Model \"" ++ p ++ "/" ++ m ++
            "\" is not allowed. Use /model to list available models."))) := by
  refine ⟨fun hp hk => ?_, fun p m hp hne hk => ?_, fun p m hp hne hk => ?_⟩
  · unfold applyModelSelectionStore applyModelSelection
    rw [hp]
    rcases hk with hk | hk
    · subst hk; simp
    · have hm : modelKey dp dm ∈ keys := by simpa using hk
      simp [hm]
  · unfold applyModelSelectionStore applyModelSelection
    rw [hp]
    have hm : modelKey p m ∈ keys := by simpa using hk
    have hd : ¬(p = dp ∧ m = dm) := hne
    simp only [hm]
    rcases Decidable.em (p = dp) with h1 | h1
    · rcases Decidable.em (m = dm) with h2 | h2
      · exact absurd ⟨h1, h2⟩ hne
      · simp [hm, h2]
    · simp [hm, h1]
  · unfold applyModelSelectionStore applyModelSelection
    rw [hp]
    have hm : modelKey p m ∉ keys := by simpa using hk
    have hl : 0 < keys.length := by
      cases keys with
      | nil => exact absurd rfl hne
      | cons a l => simp
    simp [hm, hl]

/-- Witness for C3 amended: a non-default allowed pair o/m2 is
persisted exactly. -/
theorem claim_c3_model_override_roundtrip_witness :
    parseModelRef "o/m2" "anthropic" = some ⟨"o", "m2"⟩ ∧
    applyModelSelectionStore "o/m2" "anthropic" "m1" ["o/m2"] emptyStore "k"
      { sessionId := "s", updatedAt := 0 } 7 =
      (emptyStore.insert "k"
        { ({ sessionId := "s", updatedAt := 0 } : SessionEntry) with
            providerOverride := some "o", modelOverride := some "m2", updatedAt := 7 },
        none) :=
  ⟨by decide,
    (claim_c3_model_override_roundtrip "o/m2" "anthropic" "m1" ["o/m2"] emptyStore "k"
      { sessionId := "s", updatedAt := 0 } 7).2.1 "o" "m2" (by decide) (by decide) (by decide)⟩


/-- Claim C10: a scheduled cron turn rebuilds the session record from
the fixed carried subset of fields: after the cron store writes, any
previously persisted modelOverride, providerOverride, abortedLastRun
or groupActivation value is absent (while e.g. the thinking level is
carried over), and the engine is always called on the configured
default provider and model, ignoring any persisted override. -/
theorem claim_c10_cron_frame (cfg : ClawdisConfig) (store : Store) (key msg jid jname : String)
    (jt : Option String) (jto : Option Int) (now : Int) (uuid : String) (snap : Option String)
    (res : Except String AgentRunResult) :
    ((runCronIsolatedAgentTurn cfg store key msg jid jname jt jto now uuid snap res).callArgs.provider =
      (resolveConfiguredModelRef cfg DEFAULT_PROVIDER DEFAULT_MODEL).provider ∧
     (runCronIsolatedAgentTurn cfg store key msg jid jname jt jto now uuid snap res).callArgs.model =
      (resolveConfiguredModelRef cfg DEFAULT_PROVIDER DEFAULT_MODEL).model) ∧
    (∃ e, (runCronIsolatedAgentTurn cfg store key msg jid jname jt jto now uuid snap res).store key = some e ∧
      e.modelOverride = none ∧ e.providerOverride = none ∧
      e.abortedLastRun = none ∧ e.groupActivation = none ∧
      e.thinkingLevel = (store key).bind (·.thinkingLevel) ∧
      e.verboseLevel = (store key).bind (·.verboseLevel) ∧
      e.lastChannel = (store key).bind (·.lastChannel) ∧
      e.lastTo = (store key).bind (·.lastTo)) := by
  unfold runCronIsolatedAgentTurn
  rcases res with err | r
  · constructor
    · constructor <;> rfl
    · simp only [resolveCronSession]
      repeat' split
      all_goals simp only [Store.insert, eq_self_iff_true, if_true]
      all_goals exact ⟨_, rfl, rfl, rfl, rfl, rfl, rfl, rfl, rfl, rfl⟩
  · constructor
    · constructor <;> rfl
    · simp only [resolveCronSession]
      repeat' split
      all_goals simp only [Store.insert, eq_self_iff_true, if_true]
      all_goals exact ⟨_, rfl, rfl, rfl, rfl, rfl, rfl, rfl, rfl, rfl⟩

/-- Claim C7: when the external agent engine call rejects, the
rejection propagates verbatim to the caller of the entry point and the
store stays exactly as committed before the call; in particular an
inline think level persisted before the failing call, and the
new-session record of a first contact, remain committed. -/
theorem claim_c7_upstream_failure (cfg : ClawdisConfig) (ctx : MsgContext) (store : Store)
    (now : Int) (uuid : String) (catalog : List ModelCatalogEntry)
    (se ps : List String) (snap : Option String) (q : Bool) (errMsg : String)
    (h : ∃ args, (runTurn cfg ctx store now uuid catalog se ps snap q).outcome =
      TurnOutcome.delegate args) :
    runTurnWithAgent cfg ctx store now uuid catalog se ps snap q (Except.error errMsg) =
      ((runTurn cfg ctx store now uuid catalog se ps snap q).store, Except.error errMsg) ∧
    (runTurnWithAgent cfgBase (ctxWith "/think high hello")
      (emptyStore.insert "+1555" { sessionId := "sid0", updatedAt := 995 }) 1000 "u1" [] [] []
      none false (Except.error errMsg)).2 = Except.error errMsg ∧
    ((runTurnWithAgent cfgBase (ctxWith "/think high hello")
      (emptyStore.insert "+1555" { sessionId := "sid0", updatedAt := 995 }) 1000 "u1" [] [] []
      none false (Except.error errMsg)).1 "+1555").bind (·.thinkingLevel) = some "high" ∧
    ((runTurnWithAgent cfgBase (ctxWith "hello") emptyStore 1000 "u1" [] [] [] none false
      (Except.error errMsg)).1 "+1555").map (·.sessionId) = some "u1" := by
  obtain ⟨args, ha⟩ := h
  refine ⟨?_, ?_, ?_, ?_⟩
  · simp only [runTurnWithAgent]
    rw [ha]
  · rfl
  · rfl
  · rfl

/-- Witness for C7 at a concrete fresh-session input with a concrete
error message. -/
theorem claim_c7_upstream_failure_witness :
    runTurnWithAgent cfgBase (ctxWith "/think high hello")
      (emptyStore.insert "+1555" { sessionId := "sid0", updatedAt := 995 }) 1000 "u1" [] [] []
      none false (Except.error "boom") =
      ((runTurn cfgBase (ctxWith "/think high hello")
        (emptyStore.insert "+1555" { sessionId := "sid0", updatedAt := 995 }) 1000 "u1" [] []
        [] none false).store, Except.error "boom") ∧
    ((runTurnWithAgent cfgBase (ctxWith "hello") emptyStore 1000 "u1" [] [] [] none false
      (Except.error "boom")).1 "+1555").map (·.sessionId) = some "u1" :=
  ⟨(claim_c7_upstream_failure cfgBase (ctxWith "/think high hello")
      (emptyStore.insert "+1555" { sessionId := "sid0", updatedAt := 995 }) 1000 "u1" [] [] []
      none false "boom" ⟨_, rfl⟩).1,
   (claim_c7_upstream_failure cfgBase (ctxWith "hello") emptyStore 1000 "u1" [] [] [] none
      false "boom" ⟨_, rfl⟩).2.2.2⟩

/-- Claim C8: a message whose normalized body is exactly stop, while a
session record exists under the resolved key, marks the persisted
record abortedLastRun and answers with the fixed abort
acknowledgement, never delegating to the engine; shown for a fresh
record (second group of conjuncts: for a stale record). -/
theorem claim_c8_abort_stop (sid uuid : String) (ss alr : Option Bool) (tl vl : Option String) :
    ((runTurn cfgBase (ctxWith "stop")
      (emptyStore.insert "+1555"
        { sessionId := sid, updatedAt := 0, systemSent := ss, abortedLastRun := alr,
                            thinkingLevel := tl, verboseLevel := vl })
      1000 uuid [] [] [] none false).outcome = TurnOutcome.reply "⚙️ Agent was aborted." ∧
     ((runTurn cfgBase (ctxWith "stop")
      (emptyStore.insert "+1555"
        { sessionId := sid, updatedAt := 0, systemSent := ss, abortedLastRun := alr,
                            thinkingLevel := tl, verboseLevel := vl })
      1000 uuid [] [] [] none false).store "+1555").bind (·.abortedLastRun) = some true) ∧
    ((runTurn cfgBase (ctxWith "stop")
      (emptyStore.insert "+1555"
        { sessionId := sid, updatedAt := 0, systemSent := ss, abortedLastRun := alr,
                            thinkingLevel := tl, verboseLevel := vl })
      4000000 uuid [] [] [] none false).outcome =
        TurnOutcome.reply "⚙️ Agent was aborted." ∧
     ((runTurn cfgBase (ctxWith "stop")
      (emptyStore.insert "+1555"
        { sessionId := sid, updatedAt := 0, systemSent := ss, abortedLastRun := alr,
                            thinkingLevel := tl, verboseLevel := vl })
      4000000 uuid [] [] [] none false).store "+1555").bind (·.abortedLastRun) =
        some true) :=
  ⟨⟨rfl, rfl⟩, rfl, rfl⟩

/-- Shape of one full pass through the pre-delegation pipeline: when
no stage exits early (no pure-command turn, sender allowed, no special
command, no abort), the turn is the prompt phase applied to the stage
results. -/
theorem runTurn_plain (cfg : ClawdisConfig) (ctx : MsgContext) (store : Store) (now : Int)
    (uuid : String) (catalog : List ModelCatalogEntry) (se ps : List String)
    (snap : Option String) (q : Bool) (sr : SessResolution) (tr : ThinkDirectiveResult)
    (vr : VerboseDirectiveResult) (mr : ModelDirectiveResult) (g : ModelGateResult)
    (p : PersistInlineResult) (a : AccessInfo)
    (hsr : resolveSession cfg ctx store now uuid = sr)
    (htr : extractThinkDirective ((sr.bodyStripped <|> ctx.Body).getD "") = tr)
    (hvr : extractVerboseDirective tr.cleaned = vr)
    (hmr : extractModelDirective vr.cleaned = mr)
    (hg : modelGate cfg catalog
      (resolveConfiguredModelRef cfg DEFAULT_PROVIDER DEFAULT_MODEL).provider
      (resolveConfiguredModelRef cfg DEFAULT_PROVIDER DEFAULT_MODEL).model
      mr.hasDirective sr.sessionEntry sr.store sr.sessionKey now = g)
    (hp : persistInline cfg tr vr mr
      (resolveConfiguredModelRef cfg DEFAULT_PROVIDER DEFAULT_MODEL).provider
      (resolveConfiguredModelRef cfg DEFAULT_PROVIDER DEFAULT_MODEL).model
      g sr.sessionKey now = p)
    (ha : accessInfoOf cfg ctx sr.isGroup sr.triggerBodyNormalized = a)
    (hdo : directiveOnlyOf sr.isGroup ctx cfg tr vr mr = false)
    (hden : accessDenied a sr.isGroup = false)
    (hspec : specialCommands a sr.isGroup p.sessionEntry p.store sr.sessionKey now = none)
    (habort : abortStep sr.triggerBodyNormalized p.sessionEntry p.store sr.sessionKey now =
      none)
    (pp : TurnOutcome × SessionEntry × Store × Bool)
    (hpp : promptPhase cfg ctx sr p.sessionEntry p.store p.provider p.model
      (tr.thinkLevel <|> sr.sessionEntry.thinkingLevel <|>
        (cfg.agent.bind (·.thinkingDefault)))
      (vr.verboseLevel <|> sr.sessionEntry.verboseLevel <|>
        (cfg.agent.bind (·.verboseDefault)))
      mr.cleaned (max ((cfg.agent.bind (·.timeoutSeconds)).getD 600) 1 * 1000)
      se ps snap q now = pp) :
    runTurn cfg ctx store now uuid catalog se ps snap q =
      ⟨pp.1, pp.2.1, pp.2.2.1, sr.isNewSession, mr.cleaned, pp.2.2.2,
        vr.verboseLevel <|> sr.sessionEntry.verboseLevel <|>
          (cfg.agent.bind (·.verboseDefault)),
        sr.sessionKey, sr.sessionId,
        (resolveConfiguredModelRef cfg DEFAULT_PROVIDER DEFAULT_MODEL).model⟩ := by
  simp only [runTurn, hsr, htr, hvr, hmr, hg, hp, ha, hdo, hden, hspec, habort, hpp,
    Bool.false_eq_true, if_false]

set_option maxRecDepth 10000 in
/-- The first whitespace token of the bootstrap prompt is not a
thinking level (the stray-level fallback leaves the prompt intact). -/
theorem bare_prompt_head_no_level :
    normalizeThinkLevel (some (String.mk ((splitWsJS BARE_SESSION_RESET_PROMPT.data).headD [])))
      = none := by decide

set_option maxRecDepth 10000 in
/-- Shape of the prompt phase on a bare session reset in a direct
chat: the body cleaned to emptiness with a non-empty raw body
substitutes the canonical bootstrap prompt as the delegation prompt,
after the first-turn store write. -/
theorem promptPhase_bareReset (cfg : ClawdisConfig) (ctx : MsgContext) (sr : SessResolution)
    (entry : SessionEntry) (store : Store) (provider model : String) (rt0 rv : Option String)
    (cleaned : String) (tms : Int) (se ps : List String) (snap : Option String) (now : Int)
    (hnew : sr.isNewSession = true)
    (hcg : (ctx.ChatType == some "group") = false)
    (hcl : cleaned = "")
    (hrb : (String.mk (trimChars ((ctx.Body.getD "").data)) != "") = true)
    (hab : sr.abortedLastRun = false)
    (him : (sr.sessionKey == ((cfg.session.bind (·.mainKey)).getD "main")) = false)
    (hrt : rt0 = none) :
    promptPhase cfg ctx sr entry store provider model rt0 rv cleaned tms se ps snap false now =
      (TurnOutcome.delegate
        ⟨sr.sessionId, sr.sessionKey, BARE_SESSION_RESET_PROMPT, none, provider, model, none,
          rv, tms⟩,
       { entry with sessionId := sr.sessionId, updatedAt := now, systemSent := some true,
                    skillsSnapshot := snap },
       store.insert sr.sessionKey
         { entry with sessionId := sr.sessionId, updatedAt := now, systemSent := some true,
                      skillsSnapshot := snap },
       false) := by
  subst hcl hrt
  simp +decide [promptPhase, hnew, hcg, hrb, hab, him, bare_prompt_head_no_level]

set_option maxRecDepth 10000 in
/-- Claim C9: a body consisting exactly of a default reset trigger
(with no trailing text) forces isNewSession, cleans the body to empty,
and the orchestrator delegates with the canonical say-hi bootstrap
prompt instead of an empty prompt. -/
theorem claim_c9_reset_bootstrap (e : SessionEntry) (now : Int) (uuid : String) :
    ((runTurn cfgBase (ctxWith "/new") (emptyStore.insert "+1555" e) now uuid [] [] [] none
        false).isNewSession = true ∧
     (runTurn cfgBase (ctxWith "/new") (emptyStore.insert "+1555" e) now uuid [] [] [] none
        false).cleanedBody = "" ∧
     (runTurn cfgBase (ctxWith "/new") (emptyStore.insert "+1555" e) now uuid [] [] [] none
        false).outcome = TurnOutcome.delegate
          ⟨uuid, "+1555", BARE_SESSION_RESET_PROMPT, none, "anthropic", "claude-opus-4-5",
            none, none, 600000⟩) ∧
    ((runTurn cfgBase (ctxWith "/reset") (emptyStore.insert "+1555" e) now uuid [] [] [] none
        false).isNewSession = true ∧
     (runTurn cfgBase (ctxWith "/reset") (emptyStore.insert "+1555" e) now uuid [] [] [] none
        false).cleanedBody = "" ∧
     (runTurn cfgBase (ctxWith "/reset") (emptyStore.insert "+1555" e) now uuid [] [] [] none
        false).outcome = TurnOutcome.delegate
          ⟨uuid, "+1555", BARE_SESSION_RESET_PROMPT, none, "anthropic", "claude-opus-4-5",
            none, none, 600000⟩) := by
  have h1 := runTurn_plain cfgBase (ctxWith "/new") (emptyStore.insert "+1555" e) now uuid
    [] [] [] none false _ _ _ _ _ _ _ rfl rfl rfl rfl rfl rfl rfl rfl rfl rfl rfl _
    (promptPhase_bareReset _ _ _ _ _ _ _ _ _ _ _ _ _ _ _ rfl rfl rfl rfl rfl rfl rfl)
  have h2 := runTurn_plain cfgBase (ctxWith "/reset") (emptyStore.insert "+1555" e) now uuid
    [] [] [] none false _ _ _ _ _ _ _ rfl rfl rfl rfl rfl rfl rfl rfl rfl rfl rfl _
    (promptPhase_bareReset _ _ _ _ _ _ _ _ _ _ _ _ _ _ _ rfl rfl rfl rfl rfl rfl rfl)
  rw [h1, h2]
  exact ⟨⟨rfl, rfl, rfl⟩, rfl, rfl, rfl⟩

/-! ### Shape and transport lemmas for the directive scanners and the group turn -/

theorem stripMentions_congr (ctx ctx2 : MsgContext) (cfg : ClawdisConfig)
    (hT : ctx.To = ctx2.To) (t : String) :
    stripMentions t ctx cfg = stripMentions t ctx2 cfg := by
  simp only [stripMentions, hT]

theorem isGroupFrom_congr (ctx ctx2 : MsgContext) (hF : ctx.From = ctx2.From) :
    isGroupFrom ctx = isGroupFrom ctx2 := by
  simp only [isGroupFrom, hF]

theorem resolveSessionKey_congr (ctx ctx2 : MsgContext) (hF : ctx.From = ctx2.From)
    (scope : SessionScope) (mk : String) :
    resolveSessionKey scope ctx mk = resolveSessionKey scope ctx2 mk := by
  cases scope <;> simp only [resolveSessionKey, hF]

theorem resolveSession_ctx_congr (cfg : ClawdisConfig) (ctx ctx2 : MsgContext) (store : Store)
    (now : Int) (uuid : String) (hF : ctx.From = ctx2.From) (hT : ctx.To = ctx2.To)
    (hB : ctx.Body = ctx2.Body) :
    resolveSession cfg ctx store now uuid = resolveSession cfg ctx2 store now uuid := by
  simp only [resolveSession, hB, isGroupFrom_congr ctx ctx2 hF,
    stripMentions_congr ctx ctx2 cfg hT, resolveSessionKey_congr ctx ctx2 hF]

theorem acc_cmd_shape (cfg : ClawdisConfig) (ctx : MsgContext) (tb : String) :
    (accessInfoOf cfg ctx true tb).commandBodyNormalized = stripMentions tb ctx cfg := by
  simp only [accessInfoOf, if_true]

theorem acc_act_shape (cfg : ClawdisConfig) (ctx : MsgContext) (tb : String) :
    (accessInfoOf cfg ctx true tb).activation =
      parseActivationCommand (stripMentions tb ctx cfg) := by
  simp only [accessInfoOf, if_true]

theorem acc_ownerList_congr (ctx ctx2 : MsgContext) (cfg : ClawdisConfig) (ig : Bool)
    (tb tb2 : String) (hT : ctx.To = ctx2.To) :
    (accessInfoOf cfg ctx ig tb).ownerList = (accessInfoOf cfg ctx2 ig tb2).ownerList := by
  simp only [accessInfoOf, hT]

theorem acc_owner_shape (cfg : ClawdisConfig) (ctx : MsgContext) (ig : Bool) (tb : String) :
    (accessInfoOf cfg ctx ig tb).isOwnerSender =
      (normalizeE164 (ctx.SenderE164.getD "") != "" &&
        (accessInfoOf cfg ctx ig tb).ownerList.contains
          (normalizeE164 (ctx.SenderE164.getD ""))) := by
  simp only [accessInfoOf]

theorem accessDenied_group (a : AccessInfo) : accessDenied a true = false := by
  simp [accessDenied]

theorem specialCommands_restart_nonowner (a : AccessInfo) (e : SessionEntry) (st : Store)
    (k : String) (n : Int) (h1 : a.activation.hasCommand = false)
    (h2 : a.commandBodyNormalized = "/restart") (h3 : a.isOwnerSender = false) :
    specialCommands a true e st k n = some (.noReply, e, st) := by
  simp +decide [specialCommands, h1, h2, h3]

theorem specialCommands_activation_nonowner (a : AccessInfo) (e : SessionEntry) (st : Store)
    (k : String) (n : Int) (h1 : a.activation.hasCommand = true)
    (h3 : a.isOwnerSender = false) :
    specialCommands a true e st k n = some (.noReply, e, st) := by
  simp +decide [specialCommands, h1, h3]

theorem sr_restart_ground :
    resolveSession cfgGroup (ctxGroup "/restart" "+1") st0C5 1000 "u1" = srC5 "/restart" := by
  rcases h : resolveSession cfgGroup (ctxGroup "/restart" "+1") st0C5 1000 "u1" with
    ⟨f1, f2, f3, f4, f5, f6, f7, f8, f9, f10, f11, f12, f13⟩
  have g1 : f1 = "main" := ((congrArg SessResolution.mainKey h).symm.trans rfl)
  have g2 : f2 = true := ((congrArg SessResolution.isGroup h).symm.trans rfl)
  have g3 : f3 = "/restart" :=
    ((congrArg SessResolution.triggerBodyNormalized h).symm.trans rfl)
  have g4 : f4 = "/restart" := ((congrArg SessResolution.trimmedBody h).symm.trans rfl)
  have g5 : f5 = "/restart" := ((congrArg SessResolution.strippedForReset h).symm.trans rfl)
  have g6 : f6 = none := ((congrArg SessResolution.bodyStripped h).symm.trans rfl)
  have g7 : f7 = "group:g1" := ((congrArg SessResolution.sessionKey h).symm.trans rfl)
  have g8 : f8 = "sid0" := ((congrArg SessResolution.sessionId h).symm.trans rfl)
  have g9 : f9 = false := ((congrArg SessResolution.isNewSession h).symm.trans rfl)
  have g10 : f10 = false := ((congrArg SessResolution.systemSent h).symm.trans rfl)
  have g11 : f11 = false := ((congrArg SessResolution.abortedLastRun h).symm.trans rfl)
  have g12 : f12 = entC5 := ((congrArg SessResolution.sessionEntry h).symm.trans rfl)
  have g13 : f13 = st1C5 := ((congrArg SessResolution.store h).symm.trans rfl)
  subst g1 g2 g3 g4 g5 g6 g7 g8 g9 g10 g11 g12 g13
  exact rfl

theorem sr_activation_ground :
    resolveSession cfgGroup (ctxGroup "/activation always" "+1") st0C5 1000 "u1" =
      srC5 "/activation always" := by
  rcases h : resolveSession cfgGroup (ctxGroup "/activation always" "+1") st0C5 1000 "u1" with
    ⟨f1, f2, f3, f4, f5, f6, f7, f8, f9, f10, f11, f12, f13⟩
  have g1 : f1 = "main" := ((congrArg SessResolution.mainKey h).symm.trans rfl)
  have g2 : f2 = true := ((congrArg SessResolution.isGroup h).symm.trans rfl)
  have g3 : f3 = "/activation always" :=
    ((congrArg SessResolution.triggerBodyNormalized h).symm.trans rfl)
  have g4 : f4 = "/activation always" :=
    ((congrArg SessResolution.trimmedBody h).symm.trans rfl)
  have g5 : f5 = "/activation always" :=
    ((congrArg SessResolution.strippedForReset h).symm.trans rfl)
  have g6 : f6 = none := ((congrArg SessResolution.bodyStripped h).symm.trans rfl)
  have g7 : f7 = "group:g1" := ((congrArg SessResolution.sessionKey h).symm.trans rfl)
  have g8 : f8 = "sid0" := ((congrArg SessResolution.sessionId h).symm.trans rfl)
  have g9 : f9 = false := ((congrArg SessResolution.isNewSession h).symm.trans rfl)
  have g10 : f10 = false := ((congrArg SessResolution.systemSent h).symm.trans rfl)
  have g11 : f11 = false := ((congrArg SessResolution.abortedLastRun h).symm.trans rfl)
  have g12 : f12 = entC5 := ((congrArg SessResolution.sessionEntry h).symm.trans rfl)
  have g13 : f13 = st1C5 := ((congrArg SessResolution.store h).symm.trans rfl)
  subst g1 g2 g3 g4 g5 g6 g7 g8 g9 g10 g11 g12 g13
  exact rfl

theorem sr_restartC5 (s : String) :
    resolveSession cfgGroup (ctxGroup "/restart" s) st0C5 1000 "u1" = srC5 "/restart" :=
  (resolveSession_ctx_congr cfgGroup (ctxGroup "/restart" s) (ctxGroup "/restart" "+1")
    st0C5 1000 "u1" rfl rfl rfl).trans sr_restart_ground

theorem sr_activationC5 (s : String) :
    resolveSession cfgGroup (ctxGroup "/activation always" s) st0C5 1000 "u1" =
      srC5 "/activation always" :=
  (resolveSession_ctx_congr cfgGroup (ctxGroup "/activation always" s)
    (ctxGroup "/activation always" "+1") st0C5 1000 "u1" rfl rfl rfl).trans
    sr_activation_ground

theorem runTurn_specialExit (cfg : ClawdisConfig) (ctx : MsgContext) (store : Store) (now : Int)
    (uuid : String) (catalog : List ModelCatalogEntry) (se ps : List String)
    (snap : Option String) (q : Bool) (sr : SessResolution) (tr : ThinkDirectiveResult)
    (vr : VerboseDirectiveResult) (mr : ModelDirectiveResult) (g : ModelGateResult)
    (p : PersistInlineResult) (o : TurnOutcome) (e2 : SessionEntry) (st2 : Store)
    (hsr : resolveSession cfg ctx store now uuid = sr)
    (htr : extractThinkDirective ((sr.bodyStripped <|> ctx.Body).getD "") = tr)
    (hvr : extractVerboseDirective tr.cleaned = vr)
    (hmr : extractModelDirective vr.cleaned = mr)
    (hg : modelGate cfg catalog
      (resolveConfiguredModelRef cfg DEFAULT_PROVIDER DEFAULT_MODEL).provider
      (resolveConfiguredModelRef cfg DEFAULT_PROVIDER DEFAULT_MODEL).model
      mr.hasDirective sr.sessionEntry sr.store sr.sessionKey now = g)
    (hp : persistInline cfg tr vr mr
      (resolveConfiguredModelRef cfg DEFAULT_PROVIDER DEFAULT_MODEL).provider
      (resolveConfiguredModelRef cfg DEFAULT_PROVIDER DEFAULT_MODEL).model
      g sr.sessionKey now = p)
    (hdo : directiveOnlyOf sr.isGroup ctx cfg tr vr mr = false)
    (hden : accessDenied (accessInfoOf cfg ctx sr.isGroup sr.triggerBodyNormalized)
      sr.isGroup = false)
    (hspec : specialCommands (accessInfoOf cfg ctx sr.isGroup sr.triggerBodyNormalized)
      sr.isGroup p.sessionEntry p.store sr.sessionKey now = some (o, e2, st2)) :
    runTurn cfg ctx store now uuid catalog se ps snap q =
      ⟨o, e2, st2, sr.isNewSession, mr.cleaned, false,
        vr.verboseLevel <|> sr.sessionEntry.verboseLevel <|>
          (cfg.agent.bind (·.verboseDefault)),
        sr.sessionKey, sr.sessionId,
        (resolveConfiguredModelRef cfg DEFAULT_PROVIDER DEFAULT_MODEL).model⟩ := by
  simp only [runTurn, hsr, htr, hvr, hmr, hg, hp, hdo, hden, hspec,
    Bool.false_eq_true, if_false]

set_option maxRecDepth 10000 in
/-- Claim C5 (amended): a /restart or /activation command in a group
chat from a sender outside the owner list yields no reply and no
delegation; the session-resolution write — refreshing the record
identity, flags and timestamp under the group session key — still
occurs, and it is the only store mutation of the turn. -/
theorem claim_c5_amended (body sender : String)
    (hbody : body = "/restart" ∨ body = "/activation always")
    (hsender : normalizeE164 sender ≠ "+15550001111") :
    ((runTurn cfgGroup (ctxGroup body sender) st0C5 1000 "u1" [] [] [] none
        false).outcome = TurnOutcome.noReply) ∧
    ((runTurn cfgGroup (ctxGroup body sender) st0C5 1000 "u1" [] [] [] none
        false).store = st0C5.insert "group:g1" entC5) := by
  have hown : ∀ b : String,
      (accessInfoOf cfgGroup (ctxGroup b sender) true b).isOwnerSender = false := by
    intro b
    rw [acc_owner_shape,
      acc_ownerList_congr (ctxGroup b sender) (ctxGroup "/restart" "+1") cfgGroup true
        b "/restart" rfl,
      show (accessInfoOf cfgGroup (ctxGroup "/restart" "+1") true "/restart").ownerList =
        ["+15550001111"] from by decide]
    simp only [ctxGroup, Option.getD_some]
    simp
    exact fun _ => hsender
  rcases hbody with rfl | rfl
  · have hact : (accessInfoOf cfgGroup (ctxGroup "/restart" sender) true
        "/restart").activation.hasCommand = false := by
      rw [acc_act_shape,
        stripMentions_congr (ctxGroup "/restart" sender) (ctxGroup "/restart" "+1")
          cfgGroup rfl]
      decide
    have hcmd : (accessInfoOf cfgGroup (ctxGroup "/restart" sender) true
        "/restart").commandBodyNormalized = "/restart" := by
      rw [acc_cmd_shape,
        stripMentions_congr (ctxGroup "/restart" sender) (ctxGroup "/restart" "+1")
          cfgGroup rfl]
      decide
    have hspec := specialCommands_restart_nonowner
      (accessInfoOf cfgGroup (ctxGroup "/restart" sender) true "/restart")
      entC5 st1C5 "group:g1" 1000 hact hcmd (hown "/restart")
    have h := runTurn_specialExit cfgGroup (ctxGroup "/restart" sender) st0C5 1000 "u1"
      [] [] [] none false (srC5 "/restart") ⟨"/restart", none, none, false⟩
      ⟨"/restart", none, none, false⟩ ⟨"/restart", none, false⟩ _ _
      TurnOutcome.noReply _ _
      (sr_restartC5 sender)
      (by simp only [srC5, ctxGroup, Option.none_orElse, Option.getD_some]; decide)
      (by decide) (by decide) rfl rfl rfl (accessDenied_group _) hspec
    rw [h]
    exact ⟨rfl, rfl⟩
  · have hact : (accessInfoOf cfgGroup (ctxGroup "/activation always" sender) true
        "/activation always").activation.hasCommand = true := by
      rw [acc_act_shape,
        stripMentions_congr (ctxGroup "/activation always" sender)
          (ctxGroup "/activation always" "+1") cfgGroup rfl]
      decide
    have hspec := specialCommands_activation_nonowner
      (accessInfoOf cfgGroup (ctxGroup "/activation always" sender) true
        "/activation always")
      entC5 st1C5 "group:g1" 1000 hact (hown "/activation always")
    have h := runTurn_specialExit cfgGroup (ctxGroup "/activation always" sender) st0C5
      1000 "u1" [] [] [] none false (srC5 "/activation always")
      ⟨"/activation always", none, none, false⟩ ⟨"/activation always", none, none, false⟩
      ⟨"/activation always", none, false⟩ _ _
      TurnOutcome.noReply _ _
      (sr_activationC5 sender)
      (by simp only [srC5, ctxGroup, Option.none_orElse, Option.getD_some]; decide)
      (by decide) (by decide) rfl rfl rfl (accessDenied_group _) hspec
    rw [h]
    exact ⟨rfl, rfl⟩

set_option maxRecDepth 10000 in
/-- Claim C5, counterexample: the non-owner group /restart turn does
mutate persisted session state — the record under the group key
changes (its timestamp is refreshed) even though the reply is
suppressed. -/
theorem claim_c5_counterexample :
    ((runTurn cfgGroup (ctxGroup "/restart" "+15557770000") st0C5 1000 "u1" [] [] []
      none false).outcome = TurnOutcome.noReply) ∧
    ((runTurn cfgGroup (ctxGroup "/restart" "+15557770000") st0C5 1000 "u1" [] [] []
      none false).store "group:g1" ≠ st0C5 "group:g1") := by
  decide

/-- Witness for the amended claim C5: the concrete non-owner sender
discharges both hypotheses at body /restart. -/
theorem claim_c5_amended_witness :
    (("/restart" : String) = "/restart" ∨ ("/restart" : String) = "/activation always") ∧
    normalizeE164 "+15557770000" ≠ "+15550001111" ∧
    (((runTurn cfgGroup (ctxGroup "/restart" "+15557770000") st0C5 1000 "u1" [] [] [] none
        false).outcome = TurnOutcome.noReply) ∧
    ((runTurn cfgGroup (ctxGroup "/restart" "+15557770000") st0C5 1000 "u1" [] [] [] none
        false).store = st0C5.insert "group:g1" entC5)) :=
  ⟨Or.inl rfl, by decide,
    claim_c5_amended "/restart" "+15557770000" (Or.inl rfl) (by decide)⟩

set_option maxRecDepth 10000 in
/-- Claim C6 (amended): a recognized directive keyword followed by an
unrecognized level produces the correction reply listing the valid
levels when the directive is the entire message; when further text
follows, no correction is sent — the directive is stripped and the
remaining text is forwarded to the agent engine. -/
theorem claim_c6_amended :
    ((runTurn cfgBase (ctxWith "/think wrongly") emptyStore 1000 "u1" [] [] [] none
      false).outcome = TurnOutcome.reply
        "Unrecognized thinking level \"wrongly\". Valid levels: off, minimal, low, medium, high.") ∧
    ((runTurn cfgBase (ctxWith "/verbose wrongly") emptyStore 1000 "u1" [] [] [] none
      false).outcome = TurnOutcome.reply
        "Unrecognized verbose level \"wrongly\". Valid levels: off, on.") ∧
    (isDelegateOutcome (runTurn cfgBase (ctxWith "/think wrongly hello") emptyStore 1000 "u1"
      [] [] [] none false).outcome = true) ∧
    ((runTurn cfgBase (ctxWith "/think wrongly hello") emptyStore 1000 "u1" [] [] [] none
      false).cleanedBody = "hello") := by
  decide

set_option maxRecDepth 10000 in
/-- Claim C6, counterexample: with trailing text after the invalid
directive, the turn does not produce the correction reply; it
delegates to the agent engine with the directive stripped from the
body. -/
theorem claim_c6_counterexample :
    ((runTurn cfgBase (ctxWith "/think wrongly hello") emptyStore 1000 "u1" [] [] [] none
      false).outcome ≠ TurnOutcome.reply
        "Unrecognized thinking level \"wrongly\". Valid levels: off, minimal, low, medium, high.") ∧
    (isDelegateOutcome (runTurn cfgBase (ctxWith "/think wrongly hello") emptyStore 1000 "u1"
      [] [] [] none false).outcome = true) := by
  decide

theorem ws_toNat (c : Char) (h : wsChar c = true) :
    c.toNat = 32 ∨ c.toNat = 9 ∨ c.toNat = 10 ∨ c.toNat = 13 ∨ c.toNat = 11 ∨
    c.toNat = 12 ∨ c.toNat = 160 ∨ c.toNat = 5760 ∨
    (8192 ≤ c.toNat ∧ c.toNat ≤ 8202) ∨ c.toNat = 8232 ∨ c.toNat = 8233 ∨
    c.toNat = 8239 ∨ c.toNat = 8287 ∨ c.toNat = 12288 ∨ c.toNat = 65279 := by
  simp only [wsChar, Bool.or_eq_true, Bool.and_eq_true, decide_eq_true_eq] at h
  rcases h with ((((((((((((((h|h)|h)|h)|h)|h)|h)|h)|h)|h)|h)|h)|h)|h)|h)
  · exact Or.inl (by rw [h]; rfl)
  · exact Or.inr (Or.inl (by rw [h]; rfl))
  · exact Or.inr (Or.inr (Or.inl (by rw [h]; rfl)))
  · exact Or.inr (Or.inr (Or.inr (Or.inl (by rw [h]; rfl))))
  · exact Or.inr (Or.inr (Or.inr (Or.inr (Or.inl h))))
  · exact Or.inr (Or.inr (Or.inr (Or.inr (Or.inr (Or.inl h)))))
  · exact Or.inr (Or.inr (Or.inr (Or.inr (Or.inr (Or.inr (Or.inl h))))))
  · exact Or.inr (Or.inr (Or.inr (Or.inr (Or.inr (Or.inr (Or.inr (Or.inl h)))))))
  · exact Or.inr (Or.inr (Or.inr (Or.inr (Or.inr (Or.inr (Or.inr (Or.inr (Or.inl h))))))))
  · exact Or.inr (Or.inr (Or.inr (Or.inr (Or.inr (Or.inr (Or.inr (Or.inr (Or.inr
      (Or.inl h)))))))))
  · exact Or.inr (Or.inr (Or.inr (Or.inr (Or.inr (Or.inr (Or.inr (Or.inr (Or.inr
      (Or.inr (Or.inl h))))))))))
  · exact Or.inr (Or.inr (Or.inr (Or.inr (Or.inr (Or.inr (Or.inr (Or.inr (Or.inr
      (Or.inr (Or.inr (Or.inl h)))))))))))
  · exact Or.inr (Or.inr (Or.inr (Or.inr (Or.inr (Or.inr (Or.inr (Or.inr (Or.inr
      (Or.inr (Or.inr (Or.inr (Or.inl h))))))))))))
  · exact Or.inr (Or.inr (Or.inr (Or.inr (Or.inr (Or.inr (Or.inr (Or.inr (Or.inr
      (Or.inr (Or.inr (Or.inr (Or.inr (Or.inl h)))))))))))))
  · exact Or.inr (Or.inr (Or.inr (Or.inr (Or.inr (Or.inr (Or.inr (Or.inr (Or.inr
      (Or.inr (Or.inr (Or.inr (Or.inr (Or.inr h)))))))))))))

theorem ws_not_word (c : Char) (h : wsChar c = true) : wordChar c = false := by
  have hn := ws_toNat c h
  cases hw : wordChar c
  · rfl
  exfalso
  simp only [wordChar, Bool.or_eq_true, Bool.and_eq_true, decide_eq_true_eq] at hw
  rcases hw with ((hw|hw)|hw)|hw
  · rcases hn with hn|hn|hn|hn|hn|hn|hn|hn|hn|hn|hn|hn|hn|hn|hn <;> omega
  · rcases hn with hn|hn|hn|hn|hn|hn|hn|hn|hn|hn|hn|hn|hn|hn|hn <;> omega
  · rcases hn with hn|hn|hn|hn|hn|hn|hn|hn|hn|hn|hn|hn|hn|hn|hn <;> omega
  · replace hw : c.toNat = 95 := by rw [hw]; rfl
    rcases hn with hn|hn|hn|hn|hn|hn|hn|hn|hn|hn|hn|hn|hn|hn|hn <;> omega

theorem ws_not_level (c : Char) (h : wsChar c = true) : levelChar c = false := by
  have hn := ws_toNat c h
  cases hw : levelChar c
  · rfl
  exfalso
  simp only [levelChar, Bool.or_eq_true, Bool.and_eq_true, decide_eq_true_eq] at hw
  rcases hw with (hw|hw)|hw
  · rcases hn with hn|hn|hn|hn|hn|hn|hn|hn|hn|hn|hn|hn|hn|hn|hn <;> omega
  · rcases hn with hn|hn|hn|hn|hn|hn|hn|hn|hn|hn|hn|hn|hn|hn|hn <;> omega
  · replace hw : c.toNat = 45 := by rw [hw]; rfl
    rcases hn with hn|hn|hn|hn|hn|hn|hn|hn|hn|hn|hn|hn|hn|hn|hn <;> omega

theorem ws_ne_slash (c : Char) (h : wsChar c = true) : c ≠ '/' := by
  have hn := ws_toNat c h
  intro hc
  replace hc : c.toNat = 47 := by rw [hc]; rfl
  rcases hn with hn|hn|hn|hn|hn|hn|hn|hn|hn|hn|hn|hn|hn|hn|hn <;> omega

theorem lower_ws (c : Char) (h : wsChar c = true) : lowerChar c = c := by
  have hn := ws_toNat c h
  unfold lowerChar
  rw [if_neg]
  intro hr
  simp only [Bool.and_eq_true, decide_eq_true_eq] at hr
  rcases hn with hn|hn|hn|hn|hn|hn|hn|hn|hn|hn|hn|hn|hn|hn|hn <;> omega

theorem ws_not_lower_letter (c : Char) (h : wsChar c = true) :
    ¬(97 ≤ c.toNat ∧ c.toNat ≤ 122) := by
  have hn := ws_toNat c h
  intro hr
  rcases hn with hn|hn|hn|hn|hn|hn|hn|hn|hn|hn|hn|hn|hn|hn|hn <;> omega

theorem boundary_ws (lc wc : Char) (h : wsChar wc = true) :
    boundaryOk lc (some wc) = boundaryOk lc none := by
  simp only [boundaryOk, ws_not_word wc h]
  cases wordChar lc <;> rfl

theorem drop_takeWhile_len (p : Char → Bool) : ∀ x : List Char,
    x.drop (x.takeWhile p).length = x.dropWhile p
  | [] => rfl
  | c :: rest => by
    by_cases h : p c
    · simp only [List.takeWhile_cons, List.dropWhile_cons, h, if_true, List.length_cons,
        List.drop_succ_cons]
      exact drop_takeWhile_len p rest
    · simp only [List.takeWhile_cons, List.dropWhile_cons, h, Bool.false_eq_true, if_false,
        List.length_nil, List.drop_zero]

theorem takeWhile_app_stop (p : Char → Bool) : ∀ (x w : List Char),
    x.dropWhile p ≠ [] → (x ++ w).takeWhile p = x.takeWhile p
  | [], _, h => absurd rfl h
  | c :: rest, w, h => by
    by_cases hc : p c
    · simp only [List.dropWhile_cons, hc, if_true] at h
      simp only [List.cons_append, List.takeWhile_cons, hc, if_true]
      rw [takeWhile_app_stop p rest w h]
    · simp only [List.cons_append, List.takeWhile_cons, hc, Bool.false_eq_true, if_false]

theorem dropWhile_app_stop (p : Char → Bool) : ∀ (x w : List Char),
    x.dropWhile p ≠ [] → (x ++ w).dropWhile p = x.dropWhile p ++ w
  | [], _, h => absurd rfl h
  | c :: rest, w, h => by
    by_cases hc : p c
    · simp only [List.dropWhile_cons, hc, if_true] at h
      simp only [List.cons_append, List.dropWhile_cons, hc, if_true]
      exact dropWhile_app_stop p rest w h
    · simp only [List.cons_append, List.dropWhile_cons, hc, Bool.false_eq_true, if_false]

theorem takeWhile_ws_all (w : List Char) (hw : WSL w) : w.takeWhile wsChar = w := by
  induction w with
  | nil => rfl
  | cons c rest ih =>
    simp only [List.takeWhile_cons, hw c (List.mem_cons_self c rest), if_true]
    rw [ih (fun d hd => hw d (List.mem_cons_of_mem c hd))]

theorem takeWhile_level_ws (w : List Char) (hw : WSL w) : w.takeWhile levelChar = [] := by
  cases w with
  | nil => rfl
  | cons c rest =>
    simp only [List.takeWhile_cons, ws_not_level c (hw c (List.mem_cons_self c rest)),
      Bool.false_eq_true, if_false]

theorem drop_append_le : ∀ (x w : List Char) (n : Nat), n ≤ x.length →
    (x ++ w).drop n = x.drop n ++ w
  | _, _, 0, _ => by simp
  | [], _, n + 1, h => absurd h (by simp)
  | c :: rest, w, n + 1, h => by
    simp only [List.cons_append, List.drop_succ_cons]
    exact drop_append_le rest w n (by simpa using h)

theorem dropWhile_ws_nil (w : List Char) (hw : WSL w) : w.dropWhile wsChar = [] := by
  induction w with
  | nil => rfl
  | cons c rest ih =>
    simp only [List.dropWhile_cons, hw c (List.mem_cons_self c rest), if_true]
    exact ih (fun d hd => hw d (List.mem_cons_of_mem c hd))

theorem dropWhile_app_all (p : Char → Bool) : ∀ (x w : List Char), x.dropWhile p = [] →
    (x ++ w).dropWhile p = w.dropWhile p
  | [], _, _ => rfl
  | c :: rest, w, h => by
    by_cases hc : p c
    · simp only [List.dropWhile_cons, hc, if_true] at h
      simp only [List.cons_append, List.dropWhile_cons, hc, if_true]
      exact dropWhile_app_all p rest w h
    · simp only [List.dropWhile_cons, hc, Bool.false_eq_true, if_false] at h
      exact absurd h (by simp)

theorem takeWhile_app_all (p : Char → Bool) : ∀ (x w : List Char), x.dropWhile p = [] →
    (x ++ w).takeWhile p = x ++ w.takeWhile p
  | [], _, _ => rfl
  | c :: rest, w, h => by
    by_cases hc : p c
    · simp only [List.dropWhile_cons, hc, if_true] at h
      simp only [List.cons_append, List.takeWhile_cons, hc, if_true]
      rw [takeWhile_app_all p rest w h]
    · simp only [List.dropWhile_cons, hc, Bool.false_eq_true, if_false] at h
      exact absurd h (by simp)

theorem takeWhile_all_of_dropWhile_nil (p : Char → Bool) (x : List Char)
    (h : x.dropWhile p = []) : x.takeWhile p = x := by
  have h2 := List.takeWhile_append_dropWhile (p := p) (l := x)
  rw [h, List.append_nil] at h2
  exact h2

theorem colon_match_cons (c : Char) (t : List Char) :
    (match c :: t with | ':' :: _ => 1 | _ => 0) = if c = ':' then 1 else 0 := by
  by_cases hc : c = ':'
  · subst hc
    rw [if_pos rfl]
    rfl
  · rw [if_neg hc]
    split
    · rename_i tail heq
      injection heq with h1 h2
      exact absurd h1 hc
    · rfl

theorem tbd_app_ws (run rest w : List Char) (hw : WSL w) :
    ∀ k, tryBoundaryDown run (rest ++ w) k = tryBoundaryDown run rest k := by
  intro k
  induction k with
  | zero => rfl
  | succ k0 ih =>
    simp only [tryBoundaryDown]
    cases hr : run[k0]? with
    | none => exact ih
    | some lc =>
      by_cases hk : k0 + 1 < run.length
      · simp only [hk, if_true, ih]
      · simp only [hk, if_false]
        cases rest with
        | cons r rs =>
          simp only [List.cons_append] at ih
          simp only [List.cons_append, List.head?_cons, ih]
        | nil =>
          simp only [List.nil_append] at ih
          simp only [List.nil_append]
          cases w with
          | nil => simp only [ih]
          | cons wc ws2 =>
            simp only [List.head?_cons, List.head?_nil,
              boundary_ws lc wc (hw wc (List.mem_cons_self wc ws2)), ih]

theorem dropWhile_level_ws (w : List Char) (hw : WSL w) : w.dropWhile levelChar = w := by
  cases w with
  | nil => rfl
  | cons c rest =>
    simp only [List.dropWhile_cons, ws_not_level c (hw c (List.mem_cons_self c rest)),
      Bool.false_eq_true, if_false]

theorem tail_stage2 (s2 w : List Char) (hw : WSL w) (A : Nat) :
    (match tryBoundaryDown (((s2 ++ w).dropWhile wsChar).takeWhile levelChar)
        (((s2 ++ w).dropWhile wsChar).dropWhile levelChar)
        (((s2 ++ w).dropWhile wsChar).takeWhile levelChar).length with
      | some k => some (A + ((s2 ++ w).takeWhile wsChar).length + k,
          (((s2 ++ w).dropWhile wsChar).takeWhile levelChar).take k)
      | none => none) =
    (match tryBoundaryDown ((s2.dropWhile wsChar).takeWhile levelChar)
        ((s2.dropWhile wsChar).dropWhile levelChar)
        ((s2.dropWhile wsChar).takeWhile levelChar).length with
      | some k => some (A + (s2.takeWhile wsChar).length + k,
          ((s2.dropWhile wsChar).takeWhile levelChar).take k)
      | none => none) := by
  by_cases h2 : s2.dropWhile wsChar = []
  · have h2' : (s2 ++ w).dropWhile wsChar = [] := by
      rw [dropWhile_app_all wsChar s2 w h2]
      exact dropWhile_ws_nil w hw
    simp only [h2, h2', List.takeWhile_nil, List.dropWhile_nil, List.length_nil,
      tryBoundaryDown]
  · have hTW2 := takeWhile_app_stop wsChar s2 w h2
    have hDW2 := dropWhile_app_stop wsChar s2 w h2
    simp only [hTW2, hDW2]
    by_cases h3 : (s2.dropWhile wsChar).dropWhile levelChar = []
    · have hrun : (s2.dropWhile wsChar ++ w).takeWhile levelChar =
          (s2.dropWhile wsChar).takeWhile levelChar := by
        rw [takeWhile_app_all levelChar (s2.dropWhile wsChar) w h3,
          takeWhile_level_ws w hw, List.append_nil,
          takeWhile_all_of_dropWhile_nil levelChar (s2.dropWhile wsChar) h3]
      have hrest : (s2.dropWhile wsChar ++ w).dropWhile levelChar = w := by
        rw [dropWhile_app_all levelChar (s2.dropWhile wsChar) w h3,
          dropWhile_level_ws w hw]
      have htbd := tbd_app_ws ((s2.dropWhile wsChar).takeWhile levelChar) [] w hw
      simp only [List.nil_append] at htbd
      simp only [hrun, hrest, h3, htbd]
    · have hrun := takeWhile_app_stop levelChar (s2.dropWhile wsChar) w h3
      have hrest := dropWhile_app_stop levelChar (s2.dropWhile wsChar) w h3
      simp only [hrun, hrest,
        tbd_app_ws ((s2.dropWhile wsChar).takeWhile levelChar)
          ((s2.dropWhile wsChar).dropWhile levelChar) w hw]

theorem matchTail_app_ws (x w : List Char) (hw : WSL w) : matchTail (x ++ w) = matchTail x := by
  by_cases h1 : x.dropWhile wsChar = []
  · have h1' : (x ++ w).dropWhile wsChar = [] := by
      rw [dropWhile_app_all wsChar x w h1]
      exact dropWhile_ws_nil w hw
    simp only [matchTail, drop_takeWhile_len, h1, h1', List.drop_nil, List.drop_zero,
      List.takeWhile_nil, List.dropWhile_nil, List.length_nil, tryBoundaryDown]
  · have hTW := takeWhile_app_stop wsChar x w h1
    have hDW := dropWhile_app_stop wsChar x w h1
    obtain ⟨c, d, hd⟩ : ∃ c d, x.dropWhile wsChar = c :: d := by
      cases hx : x.dropWhile wsChar with
      | nil => exact absurd hx h1
      | cons c d => exact ⟨c, d, rfl⟩
    simp only [matchTail, drop_takeWhile_len]
    simp only [hDW, hd, hTW, List.cons_append, colon_match_cons]
    by_cases hc : c = ':'
    · subst hc
      simp only [if_pos rfl, List.drop_succ_cons, List.drop_zero]
      exact tail_stage2 d w hw _
    · simp only [if_neg hc, List.drop_zero]
      have h := tail_stage2 (c :: d) w hw
        ((List.takeWhile wsChar x).length + 0)
      simp only [List.cons_append] at h
      exact h

theorem lower_ne_ws (p wc : Char) (hp : 97 ≤ (lowerChar p).toNat ∧ (lowerChar p).toNat ≤ 122)
    (hwc : wsChar wc = true) : lowerChar p ≠ lowerChar wc := by
  intro he
  rw [lower_ws wc hwc] at he
  exact ws_not_lower_letter wc hwc (he ▸ hp)

theorem prefixCI_app_eq : ∀ (kw x w : List Char), KWOK kw → WSL w →
    isPrefixCI kw (x ++ w) = isPrefixCI kw x
  | [], _, _, _, _ => rfl
  | p :: ps, [], w, hkw, hw => by
    cases w with
    | nil => rfl
    | cons wc w2 =>
      simp only [List.nil_append, isPrefixCI,
        lower_ne_ws p wc (hkw p (List.mem_cons_self p ps)) (hw wc (List.mem_cons_self wc w2)),
        decide_False, Bool.false_and]
  | p :: ps, c :: cs, w, hkw, hw => by
    simp only [List.cons_append, isPrefixCI, List.append_eq,
      prefixCI_app_eq ps cs w (fun d hd => hkw d (List.mem_cons_of_mem p hd)) hw]

theorem prefixCI_length : ∀ (kw x : List Char), isPrefixCI kw x = true → kw.length ≤ x.length
  | [], _, _ => by simp
  | p :: ps, [], h => by simp [isPrefixCI] at h
  | p :: ps, c :: cs, h => by
    simp only [isPrefixCI, Bool.and_eq_true] at h
    simp only [List.length_cons, Nat.add_le_add_iff_right]
    exact prefixCI_length ps cs h.2

theorem lookP_true : LOOKP (fun _ => true) := fun _ _ _ => rfl

theorem lookP_kw : LOOKP kwLookahead := by
  intro y w hw
  cases y with
  | nil =>
    cases w with
    | nil => rfl
    | cons wc w2 =>
      simp only [List.nil_append, kwLookahead, List.head?_nil, List.head?_cons,
        hw wc (List.mem_cons_self wc w2), Bool.true_or]
  | cons c ys => simp only [List.cons_append, kwLookahead, List.head?_cons]

theorem tryAlts_app_ws (look : List Char → Bool) (hL : LOOKP look) :
    ∀ (alts : List (List Char)) (x w : List Char), (∀ kw ∈ alts, KWOK kw) → WSL w →
    tryAlts look alts (x ++ w) = tryAlts look alts x
  | [], _, _, _, _ => rfl
  | kw :: alts2, x, w, hA, hw => by
    have hpre := prefixCI_app_eq kw x w (hA kw (List.mem_cons_self kw alts2)) hw
    have ih := tryAlts_app_ws look hL alts2 x w
      (fun k hk => hA k (List.mem_cons_of_mem kw hk)) hw
    cases hp : isPrefixCI kw x with
    | false =>
      simp only [tryAlts, hpre, hp, Bool.false_and, Bool.false_eq_true, if_false, ih]
    | true =>
      have hlen := prefixCI_length kw x hp
      have hdrop := drop_append_le x w kw.length hlen
      simp only [tryAlts, hpre, hp, hdrop, hL (x.drop kw.length) w hw,
        matchTail_app_ws (x.drop kw.length) w hw, Bool.true_and, ih]

theorem matchCore_nil (alts : List (List Char)) (look : List Char → Bool) :
    matchCore alts look [] = none := rfl

theorem matchCore_cons_ne (alts : List (List Char)) (look : List Char → Bool) (c : Char)
    (rest : List Char) (hc : c ≠ '/') : matchCore alts look (c :: rest) = none := by
  unfold matchCore
  split
  · rename_i rest2 heq
    injection heq with h1 h2
    exact absurd h1 hc
  · rfl

theorem matchCore_app_ws (alts : List (List Char)) (look : List Char → Bool)
    (hL : LOOKP look) (x w : List Char) (hA : ∀ kw ∈ alts, KWOK kw) (hw : WSL w) :
    matchCore alts look (x ++ w) = matchCore alts look x := by
  cases x with
  | nil =>
    simp only [List.nil_append, matchCore_nil]
    cases w with
    | nil => rfl
    | cons wc w2 =>
      exact matchCore_cons_ne alts look wc w2
        (ws_ne_slash wc (hw wc (List.mem_cons_self wc w2)))
  | cons c rest =>
    by_cases hc : c = '/'
    · subst hc
      simp only [List.cons_append, matchCore]
      rw [tryAlts_app_ws look hL alts rest w hA hw]
    · simp only [List.cons_append, matchCore_cons_ne alts look c _ hc,
        matchCore_cons_ne alts look c rest hc]

theorem core_ws_none (alts : List (List Char)) (look : List Char → Bool) (v : List Char)
    (hv : WSL v) : matchCore alts look v = none := by
  cases v with
  | nil => rfl
  | cons c rest =>
    exact matchCore_cons_ne alts look c rest (ws_ne_slash c (hv c (List.mem_cons_self c rest)))

theorem scanFrom_nil {α : Type} (core : List Char → Option (Nat × α)) (b : Bool) :
    scanFrom core [] b =
      (if b then (core []).map (fun p => (0, p.1, p.2)) else none) := rfl

theorem scanFrom_cons {α : Type} (core : List Char → Option (Nat × α)) (c : Char)
    (rest : List Char) (b : Bool) :
    scanFrom core (c :: rest) b =
      (match (if b then (core (c :: rest)).map (fun p => (0, p.1, p.2)) else none) with
        | some r => some r
        | none =>
          match (if wsChar c then (core rest).map (fun p => (0, p.1 + 1, p.2)) else none) with
          | some r => some r
          | none => (scanFrom core rest false).map (fun r => (r.1 + 1, r.2.1, r.2.2))) := rfl

theorem scan_ws_none (alts : List (List Char)) (look : List Char → Bool) (w : List Char) :
    ∀ b : Bool, WSL w → scanFrom (matchCore alts look) w b = none := by
  induction w with
  | nil =>
    intro b _
    simp only [scanFrom_nil, matchCore_nil, Option.map_none', ite_self]
  | cons c rest ih =>
    intro b hw
    have h1 := core_ws_none alts look (c :: rest) hw
    have h2 := core_ws_none alts look rest (fun d hd => hw d (List.mem_cons_of_mem c hd))
    have h3 := ih false (fun d hd => hw d (List.mem_cons_of_mem c hd))
    simp only [scanFrom_cons, h1, h2, h3, Option.map_none', ite_self]

theorem scan_app_ws (alts : List (List Char)) (look : List Char → Bool) (hL : LOOKP look)
    (hA : ∀ kw ∈ alts, KWOK kw) :
    ∀ (u w : List Char) (b : Bool), WSL w →
    scanFrom (matchCore alts look) (u ++ w) b = scanFrom (matchCore alts look) u b
  | [], w, b, hw => by
    simp only [List.nil_append, scan_ws_none alts look w b hw, scanFrom_nil, matchCore_nil,
      Option.map_none', ite_self]
  | c :: rest, w, b, hw => by
    have hcore1 : matchCore alts look (c :: (rest ++ w)) = matchCore alts look (c :: rest) := by
      rw [← List.cons_append]
      exact matchCore_app_ws alts look hL (c :: rest) w hA hw
    have hcore2 := matchCore_app_ws alts look hL rest w hA hw
    have ih := scan_app_ws alts look hL hA rest w false hw
    simp only [List.cons_append, scanFrom_cons, List.append_eq, hcore1, hcore2, ih]

theorem scan_true_eq_false (core : List Char → Option (Nat × List Char)) (u : List Char)
    (h : core u = none) : scanFrom core u true = scanFrom core u false := by
  cases u with
  | nil => simp only [scanFrom_nil, h, Option.map_none', ite_self]
  | cons c rest => simp only [scanFrom_cons, h, Option.map_none', ite_self]

theorem scan_strip_front (alts : List (List Char)) (look : List Char → Bool) :
    ∀ (w1 t : List Char), WSL w1 →
    scanFrom (matchCore alts look) (w1 ++ t) true = none →
    scanFrom (matchCore alts look) t true = none
  | [], t, _, h => by simpa using h
  | wc :: w2, t, hw1, h => by
    have hwc : wsChar wc = true := hw1 wc (List.mem_cons_self wc w2)
    have hcore1 : matchCore alts look (wc :: (w2 ++ t)) = none :=
      matchCore_cons_ne alts look wc _ (ws_ne_slash wc hwc)
    simp only [List.cons_append, List.append_eq, scanFrom_cons, hcore1, Option.map_none',
      ite_self, hwc, if_true] at h
    cases hcw : matchCore alts look (w2 ++ t) with
    | some p => rw [hcw] at h; simp at h
    | none =>
      rw [hcw] at h
      simp only [Option.map_none', Option.map_eq_none'] at h
      have h2 : scanFrom (matchCore alts look) (w2 ++ t) true = none := by
        rw [scan_true_eq_false (matchCore alts look) (w2 ++ t) hcw]
        exact h
      exact scan_strip_front alts look w2 t (fun d hd => hw1 d (List.mem_cons_of_mem wc hd)) h2

theorem core_slash (alts : List (List Char)) (look : List Char → Bool) (s : List Char)
    (n : Nat) (cap : List Char) (h : matchCore alts look s = some (n, cap)) :
    '/' ∈ s.take n := by
  cases s with
  | nil => rw [matchCore_nil] at h; exact Option.noConfusion h
  | cons c rest =>
    by_cases hc : c = '/'
    · subst hc
      simp only [matchCore] at h
      cases hta : tryAlts look alts rest with
      | none => rw [hta] at h; exact Option.noConfusion h
      | some p =>
        rw [hta] at h
        cases p with
        | mk n2 cap2 =>
          simp only [Option.some.injEq, Prod.mk.injEq] at h
          obtain ⟨h1, h2⟩ := h
          subst h1
          simp only [List.take_succ_cons]
          exact List.mem_cons_self '/' _
    · rw [matchCore_cons_ne alts look c rest hc] at h
      exact Option.noConfusion h

theorem scan_slash (alts : List (List Char)) (look : List Char → Bool) :
    ∀ (s : List Char) (b : Bool) (i len : Nat) (cap : List Char),
    scanFrom (matchCore alts look) s b = some (i, len, cap) →
    '/' ∈ (s.drop i).take len := by
  intro s
  induction s with
  | nil =>
    intro b i len cap h
    rw [scanFrom_nil] at h
    simp only [matchCore_nil, Option.map_none', ite_self] at h
    exact Option.noConfusion h
  | cons c rest ih =>
    intro b i len cap h
    rw [scanFrom_cons] at h
    by_cases hb : b = true
    case pos =>
      rw [if_pos hb] at h
      cases hcc : matchCore alts look (c :: rest) with
      | some p =>
        rw [hcc] at h
        simp only [Option.map_some', Option.some.injEq, Prod.mk.injEq] at h
        obtain ⟨h3, h4, h5⟩ := h
        subst h3 h4 h5
        rw [List.drop_zero]
        exact core_slash alts look (c :: rest) p.1 p.2 (by rw [hcc])
      | none =>
        rw [hcc] at h
        simp only [Option.map_none'] at h
        by_cases hwsc : wsChar c = true
        case pos =>
          rw [if_pos hwsc] at h
          cases hcr : matchCore alts look rest with
          | some q =>
            rw [hcr] at h
            simp only [Option.map_some', Option.some.injEq, Prod.mk.injEq] at h
            obtain ⟨h3, h4, h5⟩ := h
            subst h3 h4 h5
            rw [List.drop_zero, List.take_succ_cons]
            exact List.mem_cons_of_mem c (core_slash alts look rest q.1 q.2 (by rw [hcr]))
          | none =>
            rw [hcr] at h
            simp only [Option.map_none'] at h
            cases hsr : scanFrom (matchCore alts look) rest false with
            | none => rw [hsr] at h; exact Option.noConfusion h
            | some r =>
              rw [hsr] at h
              simp only [Option.map_some', Option.some.injEq, Prod.mk.injEq] at h
              obtain ⟨h3, h4, h5⟩ := h
              subst h3 h4 h5
              rw [List.drop_succ_cons]
              exact ih false r.1 r.2.1 r.2.2 (by rw [hsr])
        case neg =>
          rw [if_neg hwsc] at h
          simp only [] at h
          cases hsr : scanFrom (matchCore alts look) rest false with
          | none => rw [hsr] at h; exact Option.noConfusion h
          | some r =>
            rw [hsr] at h
            simp only [Option.map_some', Option.some.injEq, Prod.mk.injEq] at h
            obtain ⟨h3, h4, h5⟩ := h
            subst h3 h4 h5
            rw [List.drop_succ_cons]
            exact ih false r.1 r.2.1 r.2.2 (by rw [hsr])
    case neg =>
      rw [if_neg hb] at h
      simp only [] at h
      by_cases hwsc : wsChar c = true
      case pos =>
        rw [if_pos hwsc] at h
        cases hcr : matchCore alts look rest with
        | some q =>
          rw [hcr] at h
          simp only [Option.map_some', Option.some.injEq, Prod.mk.injEq] at h
          obtain ⟨h3, h4, h5⟩ := h
          subst h3 h4 h5
          rw [List.drop_zero, List.take_succ_cons]
          exact List.mem_cons_of_mem c (core_slash alts look rest q.1 q.2 (by rw [hcr]))
        | none =>
          rw [hcr] at h
          simp only [Option.map_none'] at h
          cases hsr : scanFrom (matchCore alts look) rest false with
          | none => rw [hsr] at h; exact Option.noConfusion h
          | some r =>
            rw [hsr] at h
            simp only [Option.map_some', Option.some.injEq, Prod.mk.injEq] at h
            obtain ⟨h3, h4, h5⟩ := h
            subst h3 h4 h5
            rw [List.drop_succ_cons]
            exact ih false r.1 r.2.1 r.2.2 (by rw [hsr])
      case neg =>
        rw [if_neg hwsc] at h
        simp only [] at h
        cases hsr : scanFrom (matchCore alts look) rest false with
        | none => rw [hsr] at h; exact Option.noConfusion h
        | some r =>
          rw [hsr] at h
          simp only [Option.map_some', Option.some.injEq, Prod.mk.injEq] at h
          obtain ⟨h3, h4, h5⟩ := h
          subst h3 h4 h5
          rw [List.drop_succ_cons]
          exact ih false r.1 r.2.1 r.2.2 (by rw [hsr])

theorem scan_no_slash (alts : List (List Char)) (look : List Char → Bool) :
    ∀ (s : List Char) (b : Bool), '/' ∉ s →
    scanFrom (matchCore alts look) s b = none := by
  intro s
  induction s with
  | nil =>
    intro b _
    simp only [scanFrom_nil, matchCore_nil, Option.map_none', ite_self]
  | cons c rest ih =>
    intro b h
    have hc : c ≠ '/' := by
      intro he
      apply h
      rw [he]
      exact List.mem_cons_self _ _
    have h1 : matchCore alts look (c :: rest) = none := matchCore_cons_ne alts look c rest hc
    have h2 : matchCore alts look rest = none := by
      cases rest with
      | nil => rfl
      | cons d ds =>
        refine matchCore_cons_ne alts look d ds fun hd => ?_
        apply h
        rw [hd]
        exact List.mem_cons_of_mem c (List.mem_cons_self _ _)
    have h3 := ih false (fun hm => h (List.mem_cons_of_mem c hm))
    simp only [scanFrom_cons, h1, h2, h3, Option.map_none', ite_self]

theorem isPrefixOf_ex : ∀ (l1 l2 : List Char), l1.isPrefixOf l2 = true → ∃ t, l1 ++ t = l2
  | [], l2, _ => ⟨l2, rfl⟩
  | a :: as, [], h => by simp [List.isPrefixOf] at h
  | a :: as, b :: bs, h => by
    simp only [List.isPrefixOf, Bool.and_eq_true, beq_iff_eq] at h
    obtain ⟨h1, h2⟩ := h
    subst h1
    obtain ⟨t, ht⟩ := isPrefixOf_ex as bs h2
    exact ⟨t, by rw [List.cons_append, ht]⟩

theorem take_isPrefixOf : ∀ (n : Nat) (l : List Char), (l.take n).isPrefixOf l = true
  | 0, l => by simp [List.isPrefixOf]
  | n + 1, [] => by simp [List.isPrefixOf]
  | n + 1, c :: rest => by
    simp only [List.take_succ_cons, List.isPrefixOf, beq_self_eq_true, Bool.true_and]
    exact take_isPrefixOf n rest

theorem listIndexOf_isSome_of_prefixOf (pat : List Char) : ∀ (s : List Char) (i : Nat),
    pat.isPrefixOf (s.drop i) = true → (listIndexOf pat s).isSome = true := by
  intro s
  induction s with
  | nil =>
    intro i h
    rw [List.drop_nil] at h
    cases pat with
    | nil => simp [listIndexOf, List.isEmpty]
    | cons p ps => simp [List.isPrefixOf] at h
  | cons c rest ih =>
    intro i h
    cases i with
    | zero =>
      rw [List.drop_zero] at h
      simp only [listIndexOf, h, if_true, Option.isSome_some]
    | succ j =>
      rw [List.drop_succ_cons] at h
      have h2 := ih j h
      simp only [listIndexOf]
      by_cases hp : pat.isPrefixOf (c :: rest) = true
      · simp [hp]
      · simp only [hp, Bool.false_eq_true, if_false]
        cases hli : listIndexOf pat rest with
        | none => rw [hli] at h2; simp at h2
        | some j => simp [hli]

theorem listIndexOf_prefixOf_drop (pat : List Char) : ∀ (s : List Char) (i : Nat),
    listIndexOf pat s = some i → pat.isPrefixOf (s.drop i) = true := by
  intro s
  induction s with
  | nil =>
    intro i h
    simp only [listIndexOf] at h
    by_cases he : pat.isEmpty = true
    · cases pat with
      | nil => simp [List.isPrefixOf]
      | cons p ps => simp [List.isEmpty] at he
    · rw [if_neg (by simpa using he)] at h
      exact Option.noConfusion h
  | cons c rest ih =>
    intro i h
    simp only [listIndexOf] at h
    by_cases hp : pat.isPrefixOf (c :: rest) = true
    · rw [if_pos hp] at h
      injection h with h2
      subst h2
      rw [List.drop_zero]
      exact hp
    · rw [if_neg (by simpa using hp)] at h
      cases hli : listIndexOf pat rest with
      | none => rw [hli] at h; exact Option.noConfusion h
      | some j =>
        rw [hli] at h
        simp only [Option.map_some', Option.some.injEq] at h
        subst h
        rw [List.drop_succ_cons]
        exact ih j hli

theorem replaceFirst_count (s pat : List Char) (i : Nat) (h : listIndexOf pat s = some i) :
    (replaceFirstStr s pat).count '/' + pat.count '/' = s.count '/' := by
  have hp := listIndexOf_prefixOf_drop pat s i h
  obtain ⟨t, ht⟩ := isPrefixOf_ex pat (s.drop i) hp
  have ht2 : t = s.drop (i + pat.length) := by
    have h3 := congrArg (List.drop pat.length) ht
    rw [List.drop_left, List.drop_drop] at h3
    rw [h3, Nat.add_comm]
  unfold replaceFirstStr
  rw [h]
  rw [List.count_append]
  have hs : (s.take i).count '/' + (s.drop i).count '/' = s.count '/' := by
    rw [← List.count_append, List.take_append_drop]
  rw [← hs, ← ht, List.count_append, ht2]
  omega

theorem count_collapseWsGo_le : ∀ (f : Nat) (l : List Char),
    (collapseWsGo f l).count '/' ≤ l.count '/' := by
  intro f
  induction f with
  | zero => intro l; simp [collapseWsGo]
  | succ f2 ih =>
    intro l
    cases l with
    | nil => simp [collapseWsGo]
    | cons c rest =>
      by_cases hws : wsChar c = true
      · simp only [collapseWsGo, hws, if_true]
        have h1 := ih (rest.dropWhile wsChar)
        have h2 : (rest.dropWhile wsChar).count '/' ≤ rest.count '/' :=
          List.Sublist.count_le (List.dropWhile_sublist wsChar) '/'
        simp only [List.count_cons, show (' ' == '/') = false from by decide,
          Bool.false_eq_true, if_false]
        omega
      · simp only [collapseWsGo, hws, Bool.false_eq_true, if_false]
        have h1 := ih rest
        simp only [List.count_cons]
        omega

theorem count_trimChars_le (l : List Char) : (trimChars l).count '/' ≤ l.count '/' := by
  unfold trimChars
  have h1 : ((l.dropWhile wsChar).reverse.dropWhile wsChar).count '/' ≤
      (l.dropWhile wsChar).reverse.count '/' :=
    List.Sublist.count_le (List.dropWhile_sublist wsChar) '/'
  have h2 : (l.dropWhile wsChar).count '/' ≤ l.count '/' :=
    List.Sublist.count_le (List.dropWhile_sublist wsChar) '/'
  rw [List.count_reverse] at h1
  rw [List.count_reverse]
  omega

theorem wsl_takeWhile (l : List Char) : WSL (l.takeWhile wsChar) := by
  induction l with
  | nil => intro c hc; simp at hc
  | cons c rest ih =>
    intro d hd
    rw [List.takeWhile_cons] at hd
    by_cases hc : wsChar c = true
    · rw [if_pos hc] at hd
      rcases List.mem_cons.mp hd with h | h
      · rw [h]; exact hc
      · exact ih d h
    · rw [if_neg hc] at hd
      simp at hd

theorem trim_decomp (l : List Char) :
    ∃ w1 w2, WSL w1 ∧ WSL w2 ∧ l = w1 ++ (trimChars l ++ w2) := by
  refine ⟨l.takeWhile wsChar, ((l.dropWhile wsChar).reverse.takeWhile wsChar).reverse,
    wsl_takeWhile l, ?_, ?_⟩
  · intro c hc
    rw [List.mem_reverse] at hc
    exact wsl_takeWhile _ c hc
  · have h2 : l.dropWhile wsChar =
        ((l.dropWhile wsChar).reverse.dropWhile wsChar).reverse ++
          ((l.dropWhile wsChar).reverse.takeWhile wsChar).reverse := by
      have h3 : (l.dropWhile wsChar).reverse =
          (l.dropWhile wsChar).reverse.takeWhile wsChar ++
            (l.dropWhile wsChar).reverse.dropWhile wsChar :=
        (List.takeWhile_append_dropWhile wsChar (l.dropWhile wsChar).reverse).symm
      have h4 := congrArg List.reverse h3
      rw [List.reverse_reverse, List.reverse_append] at h4
      exact h4
    have h1 : l = l.takeWhile wsChar ++ l.dropWhile wsChar :=
      (List.takeWhile_append_dropWhile wsChar l).symm
    have h0 : trimChars l ++ ((l.dropWhile wsChar).reverse.takeWhile wsChar).reverse =
        l.dropWhile wsChar := by
      rw [show trimChars l =
        ((l.dropWhile wsChar).reverse.dropWhile wsChar).reverse from rfl]
      exact h2.symm
    rw [h0]
    exact h1

theorem scan_trim_none (alts : List (List Char)) (look : List Char → Bool) (hL : LOOKP look)
    (hA : ∀ kw ∈ alts, KWOK kw) (l : List Char)
    (h : scanFrom (matchCore alts look) l true = none) :
    scanFrom (matchCore alts look) (trimChars l) true = none := by
  obtain ⟨w1, w2, hw1, hw2, hdecomp⟩ := trim_decomp l
  rw [hdecomp] at h
  have h2 := scan_strip_front alts look w1 (trimChars l ++ w2) hw1 h
  rw [scan_app_ws alts look hL hA (trimChars l) w2 true hw2] at h2
  exact h2

theorem thinkKWOK : ∀ kw ∈ thinkAlts, KWOK kw := by
  unfold KWOK
  decide

theorem verboseKWOK : ∀ kw ∈ verboseAlts, KWOK kw := by
  unfold KWOK
  decide

theorem extractThink_hasDirective_false (body : String)
    (h : findThinkMatch body.data = none) :
    (extractThinkDirective body).hasDirective = false := by
  unfold extractThinkDirective
  by_cases hb : body = ""
  · rw [if_pos hb]
  · rw [if_neg hb]
    simp only [h]

theorem extractVerbose_hasDirective_false (body : String)
    (h : findVerboseMatch body.data = none) :
    (extractVerboseDirective body).hasDirective = false := by
  unfold extractVerboseDirective
  by_cases hb : body = ""
  · rw [if_pos hb]
  · rw [if_neg hb]
    simp only [h]

theorem think_none_case (s : String) (hm : findThinkMatch s.data = none) :
    (extractThinkDirective ((extractThinkDirective s).cleaned)).hasDirective = false := by
  have hcl : (extractThinkDirective s).cleaned = String.mk (trimChars s.data) := by
    by_cases hb : s = ""
    · subst hb; rfl
    · unfold extractThinkDirective
      rw [if_neg hb]
      simp only [hm]
  rw [hcl]
  apply extractThink_hasDirective_false
  exact scan_trim_none thinkAlts (fun _ => true) lookP_true thinkKWOK s.data hm

theorem verbose_none_case (s : String) (hm : findVerboseMatch s.data = none) :
    (extractVerboseDirective ((extractVerboseDirective s).cleaned)).hasDirective = false := by
  have hcl : (extractVerboseDirective s).cleaned = String.mk (trimChars s.data) := by
    by_cases hb : s = ""
    · subst hb; rfl
    · unfold extractVerboseDirective
      rw [if_neg hb]
      simp only [hm]
  rw [hcl]
  apply extractVerbose_hasDirective_false
  exact scan_trim_none verboseAlts kwLookahead lookP_kw verboseKWOK s.data hm

theorem cleaned_no_slash (l : List Char) (hcount : l.count '/' ≤ 1) (idx len : Nat)
    (_cap : List Char) (hsl : '/' ∈ (l.drop idx).take len) :
    '/' ∉ trimChars (collapseWs (replaceFirstStr l ((l.drop idx).take len))) := by
  have hpre : ((l.drop idx).take len).isPrefixOf (l.drop idx) = true :=
    take_isPrefixOf len (l.drop idx)
  have hsome := listIndexOf_isSome_of_prefixOf ((l.drop idx).take len) l idx hpre
  obtain ⟨j, hj⟩ : ∃ j, listIndexOf ((l.drop idx).take len) l = some j := by
    cases hli : listIndexOf ((l.drop idx).take len) l with
    | none => rw [hli] at hsome; simp at hsome
    | some j => exact ⟨j, rfl⟩
  have hcnt := replaceFirst_count l ((l.drop idx).take len) j hj
  have hm0pos : ((l.drop idx).take len).count '/' ≠ 0 := by
    intro h0
    exact (List.count_eq_zero.mp h0) hsl
  have hrep0 : (replaceFirstStr l ((l.drop idx).take len)).count '/' = 0 := by omega
  have hcw : (collapseWs (replaceFirstStr l ((l.drop idx).take len))).count '/' ≤
      (replaceFirstStr l ((l.drop idx).take len)).count '/' :=
    count_collapseWsGo_le _ _
  have htr := count_trimChars_le (collapseWs (replaceFirstStr l ((l.drop idx).take len)))
  have hfinal : (trimChars (collapseWs (replaceFirstStr l
      ((l.drop idx).take len)))).count '/' = 0 := by omega
  exact List.count_eq_zero.mp hfinal

theorem think_some_case (s : String) (hcount : s.data.count '/' ≤ 1) (idx len : Nat)
    (cap : List Char) (hm : findThinkMatch s.data = some (idx, len, cap)) :
    (extractThinkDirective ((extractThinkDirective s).cleaned)).hasDirective = false := by
  have hs : s ≠ "" := by
    intro he
    subst he
    simp only [findThinkMatch, show ("" : String).data = [] from rfl, scanFrom_nil,
      matchCore_nil, Option.map_none', ite_self] at hm
    exact Option.noConfusion hm
  have hcl : (extractThinkDirective s).cleaned =
      String.mk (trimChars (collapseWs (replaceFirstStr s.data
        ((s.data.drop idx).take len)))) := by
    unfold extractThinkDirective
    rw [if_neg hs]
    simp only [hm]
  have hsl : '/' ∈ (s.data.drop idx).take len :=
    scan_slash thinkAlts (fun _ => true) s.data true idx len cap hm
  have hnomem := cleaned_no_slash s.data hcount idx len cap hsl
  rw [hcl]
  apply extractThink_hasDirective_false
  exact scan_no_slash thinkAlts (fun _ => true) _ true hnomem

theorem verbose_some_case (s : String) (hcount : s.data.count '/' ≤ 1) (idx len : Nat)
    (cap : List Char) (hm : findVerboseMatch s.data = some (idx, len, cap)) :
    (extractVerboseDirective ((extractVerboseDirective s).cleaned)).hasDirective = false := by
  have hs : s ≠ "" := by
    intro he
    subst he
    simp only [findVerboseMatch, show ("" : String).data = [] from rfl, scanFrom_nil,
      matchCore_nil, Option.map_none', ite_self] at hm
    exact Option.noConfusion hm
  have hcl : (extractVerboseDirective s).cleaned =
      String.mk (trimChars (collapseWs (replaceFirstStr s.data
        ((s.data.drop idx).take len)))) := by
    unfold extractVerboseDirective
    rw [if_neg hs]
    simp only [hm]
  have hsl : '/' ∈ (s.data.drop idx).take len :=
    scan_slash verboseAlts kwLookahead s.data true idx len cap hm
  have hnomem := cleaned_no_slash s.data hcount idx len cap hsl
  rw [hcl]
  apply extractVerbose_hasDirective_false
  exact scan_no_slash verboseAlts kwLookahead _ true hnomem

set_option maxRecDepth 10000 in
/-- Claim C2, counterexample: with the directive keyword appearing
twice in the input, re-running the extractor on the cleaned output
still finds a directive — deleting the first matched occurrence leaves
the second directive in place. -/
theorem claim_c2_counterexample :
    (extractThinkDirective ((extractThinkDirective
      "/think high /think low").cleaned)).hasDirective = true ∧
    (extractVerboseDirective ((extractVerboseDirective
      "/verbose on /verbose off").cleaned)).hasDirective = true := by
  decide

/-- Claim C2 (amended): for every input containing at most one slash
character, extracting a directive of one kind and re-running the same
extractor on the returned cleaned text yields hasDirective = false,
for extractThinkDirective and extractVerboseDirective alike. -/
theorem claim_c2_amended (s : String) (hcount : s.data.count '/' ≤ 1) :
    (extractThinkDirective ((extractThinkDirective s).cleaned)).hasDirective = false ∧
    (extractVerboseDirective ((extractVerboseDirective s).cleaned)).hasDirective = false := by
  constructor
  · cases hm : findThinkMatch s.data with
    | none => exact think_none_case s hm
    | some r => exact think_some_case s hcount r.1 r.2.1 r.2.2 (by rw [hm])
  · cases hm : findVerboseMatch s.data with
    | none => exact verbose_none_case s hm
    | some r => exact verbose_some_case s hcount r.1 r.2.1 r.2.2 (by rw [hm])

set_option maxRecDepth 10000 in
/-- Witness for the amended claim C2 at the one-slash input. -/
theorem claim_c2_amended_witness :
    ("/think high").data.count '/' ≤ 1 ∧
    ((extractThinkDirective ((extractThinkDirective
      "/think high").cleaned)).hasDirective = false ∧
    (extractVerboseDirective ((extractVerboseDirective
      "/think high").cleaned)).hasDirective = false) :=
  ⟨by decide, claim_c2_amended "/think high" (by decide)⟩

end OpenClaw
